import Mathlib

/-!
# openclaw-guardian: backup manager, command executor and recovery cascade

A shallow embedding of `cmd/openclaw-guardian/main.go`.

Modelling conventions
* A filesystem path is kept in cleaned form as its list of components:
  `filepath.Join d n` appends the component `n`, `filepath.Dir p` drops the last
  component.  `pathString` renders a path the way Go would hold it (never the empty
  string, as `filepath.Dir` never returns one).
* The filesystem is a function from paths to nodes; a directory node carries the names
  `os.ReadDir` lists for it.  A path-valued string that may be empty (`""`) is an
  `Option Path`.
* Modification times and the wall clock are natural numbers (seconds).
* External processes, the SHA-256 digest, the JSON encoder and the timestamp layout are
  supplied by a `Sys` record, so every result holds for each of their behaviours.
* `filepath.Glob` is modelled in full when the directory part of its pattern holds no
  pattern character (`*`, `?`, `[`, backslash); what it returns when the directory part
  holds one is supplied by the `Sys` record as well.
* `log.Printf` output is not modelled; instead each effect (command, probe, file copy,
  sleep, state write) is appended to the trace of the world.
-/

namespace Guardian

/-! ## Paths -/

abbrev Path := List String

/-- Go's `filepath.Join(dir, name)` for a single component `name`. -/
def filepathJoin (d : Path) (n : String) : Path := d ++ [n]

/-- Go's `filepath.Dir`. -/
def filepathDir (p : Path) : Path := p.dropLast

/-- The string Go holds for a path: components separated by `/`. -/
def pathString (p : Path) : String := "/" ++ String.intercalate "/" p

/-! ## Filesystem -/

/-- Go's `error` values, as far as the program tells them apart. -/
inductive GoErr where
  | notExist
  | exit (code : Int)
  | other (msg : String)
  deriving DecidableEq, Repr

/-- A node of the filesystem: a regular file with its bytes, a directory with the names
it lists, or a path on which every operation fails with a permission error. -/
inductive Node where
  | file (mod : Nat) (data : List Nat)
  | dir (mod : Nat) (names : List String)
  | denied
  deriving DecidableEq, Repr

abbrev FS := Path → Option Node

/-- What `os.Stat` reports (`fs.FileInfo`). -/
structure FileInfo where
  isDir : Bool
  modTime : Nat
  deriving DecidableEq, Repr

/-- What `os.ReadDir` reports per entry (`fs.DirEntry`). -/
structure DirEntry where
  name : String
  isDir : Bool
  deriving DecidableEq, Repr

/-- Go's `os.Stat`. -/
def osStat (fs : FS) (p : Path) : Except GoErr FileInfo :=
  match fs p with
  | some (Node.file m _) => .ok { isDir := false, modTime := m }
  | some (Node.dir m _) => .ok { isDir := true, modTime := m }
  | some Node.denied => .error (GoErr.other "permission denied")
  | none => .error GoErr.notExist

/-- The names a directory lists, each once. -/
def dirNames (fs : FS) (d : Path) : Option (List String) :=
  match fs d with
  | some (Node.dir _ names) => some names.dedup
  | _ => none

/-- Whether the node at `p` is a directory (a missing node is not). -/
def nodeIsDir (fs : FS) (p : Path) : Bool :=
  match fs p with
  | some (Node.dir _ _) => true
  | _ => false

/-- The entry `os.ReadDir` gives for the name `n` listed in `d`. -/
def dirEntryOf (fs : FS) (d : Path) (n : String) : DirEntry :=
  { name := n, isDir := nodeIsDir fs (filepathJoin d n) }

/-- Go's `os.ReadDir`: `none` is the error result. -/
def osReadDir (fs : FS) (d : Path) : Option (List DirEntry) :=
  (dirNames fs d).map (fun names => names.map (dirEntryOf fs d))

/-- Go's `strings.HasPrefix` on the characters of two strings. -/
def hasPrefix (s pre : String) : Bool := pre.toList.isPrefixOf s.toList

/-- Go's internal `glob(dir, pre + "*", nil)` of `path/filepath`: the names of the
directory `dir` that start with `pre`, joined to `dir`; nothing when `dir` cannot be
read as a directory. -/
def globDir (fs : FS) (d : Path) (pre : String) : List Path :=
  match dirNames fs d with
  | some names => (names.filter (fun n => hasPrefix n pre)).map (filepathJoin d)
  | none => []

/-- The characters `*`, `?`, `[` and the backslash, which `filepath.Glob` reads as
pattern characters. -/
def isMagicChar (c : Char) : Bool :=
  c.toNat == 42 || c.toNat == 63 || c.toNat == 91 || c.toNat == 92

/-- Go's `hasMeta` of `path/filepath` on a directory path. -/
def hasMeta (p : Path) : Bool := p.any (fun comp => comp.toList.any isMagicChar)

/-! ## Configuration and state -/

structure Config where
  IntervalMinutes : Int
  OpenClawBin : String
  HealthCmd : List String
  RestartCmd : List String
  InstallCmd : List String
  StartCmd : List String
  BootstrapCmd : List String
  GatewayPlistPath : Option Path
  DoctorCmd : List String
  StatusCmd : List String
  HealthTimeoutSeconds : Int
  RestartBackoffSeconds : Int
  MaxRestartAttempts : Int
  ConfigPath : Path
  BackupDir : Path
  StatePath : Path
  AutoRollback : Bool
  LogPath : Path
  LogToStdout : Bool
  VerboseLogs : Bool
  LogHealthOk : Bool

/-- The persisted state.  The two path-valued strings are `none` when empty. -/
structure State where
  LastConfigHash : String
  LastBackup : Option Path
  LastGoodBackup : Option Path
  deriving DecidableEq, Repr

/-! ## Worlds, effects and the external collaborators -/

inductive Action where
  | restart | install | start | bootstrap | doctor | status
  deriving DecidableEq, Repr

/-- An effect performed by the program, as recorded in the trace. -/
inductive Event where
  | cmd (a : Action)
  | probe (ok : Bool)
  | copy (src dst : Path)
  | sleep (secs : Int)
  | saveState
  deriving DecidableEq, Repr

structure World where
  fs : FS
  now : Nat
  trace : List Event

def World.emit (w : World) (e : Event) : World := { w with trace := w.trace ++ [e] }

/-- How an external process ended. -/
inductive ProcOutcome where
  | exited (code : Int)
  | signaled
  | notStarted (msg : String)
  deriving DecidableEq, Repr

/-- Everything a run of an external process does. -/
structure ProcResult where
  stdout : String
  stderr : String
  outcome : ProcOutcome
  fs : FS
  elapsed : Nat

/-- The collaborators outside the program: the digest, the JSON encoder, the timestamp
layout `20060102-150405`, the user id, the behaviour of external processes (given the
world, the deadline in seconds and the argument vector), and what `filepath.Glob`
returns for `filepath.Join(dir, pat)` when `dir` holds pattern characters (given the
filesystem, `dir` and `pat`; `none` is `ErrBadPattern`). -/
structure Sys where
  sha256Hex : List Nat → String
  marshalState : State → List Nat
  timestamp : Nat → String
  uid : Nat
  exec : World → Int → List String → ProcResult
  globExpand : FS → Path → String → Option (List Path)

/-! ## Rollback candidates -/

structure backupEntry where
  path : Path
  mod : Nat
  deriving DecidableEq, Repr

/-- The closure `addFile` of `candidateBackups`: the entries it appends for `p`. -/
def addFile (fs : FS) (p : Path) : List backupEntry :=
  match osStat fs p with
  | .error _ => []
  | .ok info => if info.isDir then [] else [{ path := p, mod := info.modTime }]

/-- One step of insertion: `x` goes in front of the first element it is `less` than. -/
def insertLess {α : Type} (less : α → α → Bool) (x : α) : List α → List α
  | [] => [x]
  | y :: ys => if less x y then x :: y :: ys else y :: insertLess less x ys

/-- Go's `sort.Slice`: the elements rearranged so that no element is `less` than one
before it.  Elements are inserted left to right, as Go does for short slices. -/
def sortSlice {α : Type} (less : α → α → Bool) (xs : List α) : List α :=
  xs.foldl (fun acc x => insertLess less x acc) []

/-- The comparison `entries[i].mod.After(entries[j].mod)`. -/
def modAfter (a b : backupEntry) : Bool := decide (b.mod < a.mod)

/-- Entries of the guardian backup directory (first source). -/
def scanBackupDir (fs : FS) (cfg : Config) : List backupEntry :=
  match osReadDir fs cfg.BackupDir with
  | some list =>
    (list.filter (fun e => !e.isDir)).flatMap
      (fun e => addFile fs (filepathJoin cfg.BackupDir e.name))
  | none => []

/-- Go's `filepath.Glob(filepath.Join(dir, pre + "*"))`; `none` is the error result
(`ErrBadPattern`).  When `dir` holds no pattern character, Glob lists `dir` itself;
otherwise it expands the pattern characters of `dir`, which is left to `sys`. -/
def filepathGlob (sys : Sys) (fs : FS) (d : Path) (pre : String) : Option (List Path) :=
  if hasMeta d then sys.globExpand fs d (pre ++ "*") else some (globDir fs d pre)

/-- The matches the loop over `filepath.Glob(... "openclaw.json.bak*")` runs through:
none when Glob returns an error. -/
def globMatches (sys : Sys) (fs : FS) (cfg : Config) : List Path :=
  match filepathGlob sys fs (filepathDir cfg.ConfigPath) "openclaw.json.bak" with
  | some found => found
  | none => []

/-- Entries collected by `candidateBackups` before sorting, in the order appended. -/
def collectEntries (sys : Sys) (fs : FS) (cfg : Config) : List backupEntry :=
  let cfgDir := filepathDir cfg.ConfigPath
  scanBackupDir fs cfg
    ++ (globMatches sys fs cfg).flatMap (addFile fs)
    ++ addFile fs (filepathJoin cfgDir "openclaw.json.bak")
    ++ (if pathString cfgDir ≠ "" then
          addFile fs (filepathJoin cfg.BackupDir "openclaw.good.latest")
        else [])

def candidateBackups (sys : Sys) (fs : FS) (cfg : Config) : List Path :=
  let entries := collectEntries sys fs cfg
  if entries.length = 0 then []
  else (sortSlice modAfter entries).map (fun e => e.path)

/-! ## File operations -/

def setNode (fs : FS) (p : Path) (n : Node) : FS := fun q => if q = p then some n else fs q

/-- Enter a newly created `p` in the listing of its parent directory. -/
def linkChild (fs : FS) (now : Nat) (p : Path) : FS :=
  match p.getLast? with
  | none => fs
  | some n =>
    match fs (filepathDir p) with
    | some (Node.dir _ names) =>
      setNode fs (filepathDir p) (Node.dir now (if n ∈ names then names else names ++ [n]))
    | _ => fs

/-- One `os.Mkdir` step of `os.MkdirAll`: an existing directory is kept, anything else
in the way is an error. -/
def mkdirOne (fs : FS) (now : Nat) (q : Path) : Option FS :=
  match fs q with
  | some (Node.dir _ _) => some fs
  | some _ => none
  | none => some (linkChild (setNode fs q (Node.dir now [])) now q)

/-- Go's `os.MkdirAll`; `none` is the error result. -/
def osMkdirAll (fs : FS) (now : Nat) (p : Path) : Option FS :=
  match fs p with
  | some (Node.dir _ _) => some fs
  | _ => p.inits.foldl (fun acc q => acc.bind (fun g => mkdirOne g now q)) (some fs)

def ensureDir (fs : FS) (now : Nat) (p : Path) : Option FS := osMkdirAll fs now p

/-- Go's `os.OpenFile(p, O_CREATE|O_TRUNC|O_WRONLY, 0o644)`; `none` is the error result. -/
def openTrunc (fs : FS) (now : Nat) (p : Path) : Option FS :=
  match fs p with
  | some (Node.file _ _) => some (setNode fs p (Node.file now []))
  | some _ => none
  | none =>
    match fs (filepathDir p) with
    | some (Node.dir _ _) => some (linkChild (setNode fs p (Node.file now [])) now p)
    | _ => none

def fileHash (sys : Sys) (fs : FS) (p : Path) : Except GoErr String :=
  match fs p with
  | some (Node.file _ data) => .ok (sys.sha256Hex data)
  | some (Node.dir _ _) => .error (GoErr.other "is a directory")
  | some Node.denied => .error (GoErr.other "permission denied")
  | none => .error GoErr.notExist

/-- The file operations of `copyFile`: the error result and the filesystem left behind.
The source is read after the destination has been truncated, as in the source. -/
def copyFileFS (fs : FS) (now : Nat) (src dst : Path) : Option GoErr × FS :=
  match fs src with
  | none => (some GoErr.notExist, fs)
  | some Node.denied => (some (GoErr.other "permission denied"), fs)
  | some _ =>
    match ensureDir fs now (filepathDir dst) with
    | none => (some (GoErr.other "mkdir"), fs)
    | some fs1 =>
      match openTrunc fs1 now dst with
      | none => (some (GoErr.other "open"), fs1)
      | some fs2 =>
        match fs2 src with
        | some (Node.file _ data) => (none, setNode fs2 dst (Node.file now data))
        | _ => (some (GoErr.other "read"), fs2)

def copyFile (w : World) (src dst : Path) : Option GoErr × World :=
  let r := copyFileFS w.fs w.now src dst
  (r.1, { (w.emit (Event.copy src dst)) with fs := r.2 })

/-! ## Backups -/

def backupIfChanged (sys : Sys) (cfg : Config) (st : State) (w : World) :
    (State × Option GoErr) × World :=
  match osStat w.fs cfg.ConfigPath with
  | .error err => if err = GoErr.notExist then ((st, none), w) else ((st, some err), w)
  | .ok _ =>
    match fileHash sys w.fs cfg.ConfigPath with
    | .error err => ((st, some err), w)
    | .ok h =>
      if h = st.LastConfigHash then ((st, none), w)
      else
        match ensureDir w.fs w.now cfg.BackupDir with
        | none => ((st, some (GoErr.other "mkdir")), w)
        | some fs1 =>
          let w1 : World := { w with fs := fs1 }
          let backupName := "openclaw.json." ++ sys.timestamp w1.now
          let backupPath := filepathJoin cfg.BackupDir backupName
          match copyFile w1 cfg.ConfigPath backupPath with
          | (some err, w2) => ((st, some err), w2)
          | (none, w2) =>
            (({ st with LastConfigHash := h, LastBackup := some backupPath }, none), w2)

def recordLastGood (sys : Sys) (cfg : Config) (st : State) (w : World) : State × World :=
  match osStat w.fs cfg.ConfigPath with
  | .error _ => (st, w)
  | .ok _ =>
    match fileHash sys w.fs cfg.ConfigPath with
    | .error _ => (st, w)
    | .ok h =>
      if h = st.LastConfigHash ∧ st.LastGoodBackup ≠ none then (st, w)
      else
        match ensureDir w.fs w.now cfg.BackupDir with
        | none => (st, w)
        | some fs1 =>
          let w1 : World := { w with fs := fs1 }
          let backupName := "openclaw.good." ++ sys.timestamp w1.now
          let backupPath := filepathJoin cfg.BackupDir backupName
          match copyFile w1 cfg.ConfigPath backupPath with
          | (some _, w2) => (st, w2)
          | (none, w2) =>
            ({ st with LastGoodBackup := some backupPath, LastConfigHash := h }, w2)

def writeLatestGoodMarker (cfg : Config) (st : State) (w : World) : World :=
  match st.LastGoodBackup with
  | none => w
  | some good => (copyFile w good (filepathJoin cfg.BackupDir "openclaw.good.latest")).2

/-- The function `saveState`: `os.WriteFile` of the encoded state; the error is dropped
by every caller. -/
def saveState (sys : Sys) (path : Path) (st : State) (w : World) : World :=
  let w0 := w.emit Event.saveState
  match ensureDir w0.fs w0.now (filepathDir path) with
  | none => w0
  | some fs1 =>
    match openTrunc fs1 w0.now path with
    | none => { w0 with fs := fs1 }
    | some fs2 => { w0 with fs := setNode fs2 path (Node.file w0.now (sys.marshalState st)) }

/-! ## Command executor and health prober -/

/-- The four results of `runCommand`. -/
structure CmdResult where
  stdout : String
  stderr : String
  code : Int
  err : Option GoErr
  deriving DecidableEq, Repr

/-- Go's `(*exec.Cmd).Run` under a context with a deadline: `nil` when the process ran
and exited with status 0, an `*exec.ExitError` when it started but did not succeed (its
`ExitCode()` is the exit status, or -1 when it was ended by a signal such as the kill
at the deadline), and another error when it could not be started. -/
def cmdRun (sys : Sys) (w : World) (timeout : Int) (args : List String) :
    (String × String × Option GoErr) × World :=
  let r := sys.exec w timeout args
  let err : Option GoErr :=
    match r.outcome with
    | ProcOutcome.exited c => if c = 0 then none else some (GoErr.exit c)
    | ProcOutcome.signaled => some (GoErr.exit (-1))
    | ProcOutcome.notStarted m => some (GoErr.other m)
  ((r.stdout, r.stderr, err), { w with fs := r.fs, now := w.now + r.elapsed })

def runCommand (sys : Sys) (w : World) (timeout : Int) (args : List String) :
    CmdResult × World :=
  if args.length = 0 then
    ({ stdout := "", stderr := "", code := -1, err := some (GoErr.other "empty command") }, w)
  else
    match cmdRun sys w timeout args with
    | ((out, errOut, err), w1) =>
      let exitCode : Int :=
        match err with
        | none => 0
        | some (GoErr.exit c) => c
        | some _ => -1
      ({ stdout := out, stderr := errOut, code := exitCode, err := err }, w1)

structure HealthResult where
  ok : Bool
  stdout : String
  stderr : String
  code : Int
  err : Option GoErr
  deriving DecidableEq, Repr

/-- The classification made by `healthCheck` of what `runCommand` returned. -/
def healthResult (r : CmdResult) : HealthResult :=
  if r.err = none ∧ r.code = 0 then
    { ok := true, stdout := r.stdout, stderr := r.stderr, code := r.code, err := r.err }
  else
    { ok := false, stdout := r.stdout, stderr := r.stderr, code := r.code, err := r.err }

def healthCheck (sys : Sys) (cfg : Config) (w : World) : HealthResult × World :=
  match runCommand sys w cfg.HealthTimeoutSeconds cfg.HealthCmd with
  | (r, w1) => (healthResult r, w1.emit (Event.probe (healthResult r).ok))

/-! ## Remediation actions -/

/-- Go's `strings.Contains`. -/
def stringsContains (s sub : String) : Bool :=
  s.toList.tails.any (fun t => sub.toList.isPrefixOf t)

def requiresInstall (out errOut : String) : Bool :=
  stringsContains out "Gateway service not loaded" ||
    stringsContains errOut "Gateway service not loaded"

def installGateway (sys : Sys) (cfg : Config) (w : World) : World :=
  if cfg.InstallCmd.length = 0 then w
  else (runCommand sys (w.emit (Event.cmd Action.install)) 90 cfg.InstallCmd).2

def bootstrapGateway (sys : Sys) (cfg : Config) (w : World) : World :=
  if 0 < cfg.BootstrapCmd.length then
    (runCommand sys (w.emit (Event.cmd Action.bootstrap)) 30 cfg.BootstrapCmd).2
  else
    match cfg.GatewayPlistPath with
    | some plist =>
      (runCommand sys (w.emit (Event.cmd Action.bootstrap)) 30
        ["launchctl", "bootstrap", "gui/" ++ toString sys.uid, pathString plist]).2
    | none => w

/-- Whether `cfg.GatewayPlistPath` is set and `os.Stat` of it succeeds. -/
def plistExists (cfg : Config) (fs : FS) : Bool :=
  match cfg.GatewayPlistPath with
  | some plist =>
    match osStat fs plist with
    | .ok _ => true
    | .error _ => false
  | none => false

def handleServiceNotLoaded (sys : Sys) (cfg : Config) (w : World) : World :=
  if plistExists cfg w.fs then bootstrapGateway sys cfg w
  else bootstrapGateway sys cfg (installGateway sys cfg w)

def restart (sys : Sys) (cfg : Config) (w : World) : World :=
  match runCommand sys (w.emit (Event.cmd Action.restart)) 60 cfg.RestartCmd with
  | (r, w1) =>
    if requiresInstall r.stdout r.stderr then handleServiceNotLoaded sys cfg w1 else w1

def runDoctor (sys : Sys) (cfg : Config) (w : World) : World :=
  (runCommand sys (w.emit (Event.cmd Action.doctor)) 90 cfg.DoctorCmd).2

def runStatus (sys : Sys) (cfg : Config) (w : World) : World :=
  (runCommand sys (w.emit (Event.cmd Action.status)) 60 cfg.StatusCmd).2

def rollbackToPrevious (sys : Sys) (cfg : Config) (w : World) : Bool × World :=
  match candidateBackups sys w.fs cfg with
  | [] => (false, w)
  | prev :: _ =>
    match copyFile w prev cfg.ConfigPath with
    | (some _, w1) => (false, w1)
    | (none, w1) => (true, w1)

def rollbackToPreviousWithState (sys : Sys) (cfg : Config) (_st : State) (w : World) :
    Bool × World :=
  rollbackToPrevious sys cfg w

def shouldTryStart (res : HealthResult) : Bool :=
  let msg := res.stderr
  stringsContains msg "gateway closed" ||
    stringsContains msg "Connection refused" ||
    stringsContains msg "ECONNREFUSED" ||
    stringsContains msg "Gateway service not loaded"

def startGateway (sys : Sys) (cfg : Config) (w : World) : Bool × World :=
  match runCommand sys (w.emit (Event.cmd Action.start)) 90 cfg.StartCmd with
  | (r, w1) => (requiresInstall r.stdout r.stderr, w1)

/-- Go's `time.Sleep` of `secs` seconds (a negative duration returns at once). -/
def timeSleep (w : World) (secs : Int) : World :=
  { (w.emit (Event.sleep secs)) with now := w.now + secs.toNat }

/-! ## One pass of the control loop -/

/-- Lines 584-596 of `main`, entered when `shouldTryStart res` holds: the start action,
its repair, the backoff wait and the re-probe.  The result says whether the tick ends
here (`goto nextTick`). -/
def fastStart (sys : Sys) (cfg : Config) (w : World) : Bool × World :=
  let w2 :=
    match startGateway sys cfg w with
    | (true, w1) => (startGateway sys cfg (handleServiceNotLoaded sys cfg w1)).2
    | (false, w1) => w1
  let w3 := timeSleep w2 cfg.RestartBackoffSeconds
  match healthCheck sys cfg w3 with
  | (h, w4) => (h.ok, w4)

/-- Lines 600-608 of `main` with `n` iterations left: the result says whether a
re-probe was healthy (`goto nextTick`). -/
def restartLoop (sys : Sys) (cfg : Config) : Nat → World → Bool × World
  | 0, w => (false, w)
  | n + 1, w =>
    let w1 := restart sys cfg w
    let w2 := timeSleep w1 cfg.RestartBackoffSeconds
    match healthCheck sys cfg w2 with
    | (h, w3) => if h.ok then (true, w3) else restartLoop sys cfg n w3

/-- Lines 612-623 of `main`: the rollback step.  The result is the new `lastHealthy`. -/
def rollbackStep (sys : Sys) (cfg : Config) (st : State) (w : World) : Bool × World :=
  if cfg.AutoRollback then
    match rollbackToPreviousWithState sys cfg st w with
    | (true, w1) =>
      let w2 := restart sys cfg w1
      let w3 := timeSleep w2 cfg.RestartBackoffSeconds
      match healthCheck sys cfg w3 with
      | (h, w4) => (h.ok, w4)
    | (false, w1) => (false, w1)
  else (false, w)

/-- Lines 598-623 of `main`: status, restart cascade, doctor, rollback. -/
def cascade (sys : Sys) (cfg : Config) (st : State) (w : World) : Bool × World :=
  let w1 := runStatus sys cfg w
  match restartLoop sys cfg cfg.MaxRestartAttempts.toNat w1 with
  | (true, w2) => (true, w2)
  | (false, w2) => rollbackStep sys cfg st (runDoctor sys cfg w2)

/-- Lines 584-623 of `main`: what follows an unhealthy probe `res`.  The result is the
value of `lastHealthy` at `nextTick`. -/
def escalate (sys : Sys) (cfg : Config) (st : State) (res : HealthResult) (w : World) :
    Bool × World :=
  if shouldTryStart res then
    match fastStart sys cfg w with
    | (true, w1) => (true, w1)
    | (false, w1) => cascade sys cfg st w1
  else cascade sys cfg st w

/-- The variables of the loop in `main`. -/
structure Loop where
  st : State
  lastHealthy : Bool
  w : World

/-- The world in which the probe of a tick is taken: after `backupIfChanged` and
`saveState` (lines 559-560). -/
def beforeProbe (sys : Sys) (cfg : Config) (l : Loop) : State × World :=
  match backupIfChanged sys cfg l.st l.w with
  | ((st1, _), w1) => (st1, saveState sys cfg.StatePath st1 w1)

/-- One iteration of the loop of `main`, up to the wait for the next tick. -/
def tick (sys : Sys) (cfg : Config) (l : Loop) : Loop :=
  match beforeProbe sys cfg l with
  | (st1, w2) =>
    match healthCheck sys cfg w2 with
    | (res, w3) =>
      if res.ok then
        match recordLastGood sys cfg st1 w3 with
        | (st2, w4) =>
          let w5 := writeLatestGoodMarker cfg st2 w4
          { st := st2, lastHealthy := true, w := saveState sys cfg.StatePath st2 w5 }
      else
        match escalate sys cfg st1 res w3 with
        | (healthy, w4) => { st := st1, lastHealthy := healthy, w := w4 }

/-! ## Vocabulary of the statements -/

/-- Whether `p` is a regular file. -/
def isRegular (fs : FS) (p : Path) : Bool :=
  match fs p with
  | some (Node.file _ _) => true
  | _ => false

/-- The path of the backup `backupIfChanged` writes at time `now`. -/
def backupPathAt (sys : Sys) (cfg : Config) (now : Nat) : Path :=
  filepathJoin cfg.BackupDir ("openclaw.json." ++ sys.timestamp now)

/-- Whether the digest of the managed config file equals `st.LastConfigHash`. -/
def hashUnchanged (sys : Sys) (cfg : Config) (st : State) (fs : FS) : Bool :=
  match fileHash sys fs cfg.ConfigPath with
  | .ok h => decide (h = st.LastConfigHash)
  | .error _ => false

/-- The first probe of a tick and the world it leaves (line 562 of `main`). -/
def initialProbe (sys : Sys) (cfg : Config) (l : Loop) : HealthResult × World :=
  healthCheck sys cfg (beforeProbe sys cfg l).2

/-- The world in which line 598 of `main` (the status action) is reached when the tick
gets there: the one left by the fast start when it was attempted, else the one left by
the first probe. -/
def cascadeEntry (sys : Sys) (cfg : Config) (l : Loop) : World :=
  if shouldTryStart (initialProbe sys cfg l).1 then
    (fastStart sys cfg (initialProbe sys cfg l).2).2
  else (initialProbe sys cfg l).2

/-- The restart cascade of the tick (lines 598-608): whether a re-probe was healthy, and
the world it leaves. -/
def afterRestarts (sys : Sys) (cfg : Config) (l : Loop) : Bool × World :=
  restartLoop sys cfg cfg.MaxRestartAttempts.toNat (runStatus sys cfg (cascadeEntry sys cfg l))

/-- The world left by the doctor action of the tick (line 610). -/
def afterDoctor (sys : Sys) (cfg : Config) (l : Loop) : World :=
  runDoctor sys cfg (afterRestarts sys cfg l).2

/-- Events of the install and bootstrap actions and of the backoff waits. -/
def Event.isMinor : Event → Bool
  | Event.cmd Action.install => true
  | Event.cmd Action.bootstrap => true
  | Event.sleep _ => true
  | _ => false

/-- The events that are neither install, bootstrap nor a wait. -/
def majorEvents (evs : List Event) : List Event := evs.filter (fun e => !e.isMinor)

/-- Events of the general cascade: restart, status, doctor and any file copy. -/
def Event.isCascade : Event → Bool
  | Event.cmd Action.restart => true
  | Event.cmd Action.status => true
  | Event.cmd Action.doctor => true
  | Event.copy _ _ => true
  | _ => false

/-- Whether the event is a file copy onto `dst`. -/
def Event.isCopyTo (dst : Path) : Event → Bool
  | Event.copy _ d => decide (d = dst)
  | _ => false

/-- The events of `installGateway`. -/
def installEvents (cfg : Config) : List Event :=
  if cfg.InstallCmd.length = 0 then [] else [Event.cmd Action.install]

/-- The events of `bootstrapGateway`. -/
def bootstrapEvents (cfg : Config) : List Event :=
  if 0 < cfg.BootstrapCmd.length ∨ cfg.GatewayPlistPath ≠ none then
    [Event.cmd Action.bootstrap]
  else []

/-- The events of `handleServiceNotLoaded` in a filesystem `fs`. -/
def repairEvents (cfg : Config) (fs : FS) : List Event :=
  if plistExists cfg fs then bootstrapEvents cfg
  else installEvents cfg ++ bootstrapEvents cfg

/-- The events of the fast start (lines 586-591 of `main`) begun in the world `w`. -/
def fastStartEvents (sys : Sys) (cfg : Config) (w : World) : List Event :=
  [Event.cmd Action.start] ++
    (if (startGateway sys cfg w).1 then
      repairEvents cfg (startGateway sys cfg w).2.fs ++ [Event.cmd Action.start]
    else []) ++
    [Event.sleep cfg.RestartBackoffSeconds, Event.probe (fastStart sys cfg w).1]

/-- The major events of `n` restart rounds that each end in an unhealthy probe. -/
def restartRounds : Nat → List Event
  | 0 => []
  | n + 1 => Event.cmd Action.restart :: Event.probe false :: restartRounds n

/-! ## Concrete configurations and filesystems -/

/-- The configuration `defaultConfig` returns for the home directory `/home`. -/
def cfg0 : Config :=
  { IntervalMinutes := 3, OpenClawBin := "openclaw",
    HealthCmd := ["openclaw", "health", "--json"],
    RestartCmd := ["openclaw", "gateway", "restart"],
    InstallCmd := ["openclaw", "gateway", "install"],
    StartCmd := ["openclaw", "gateway", "start"],
    BootstrapCmd := [],
    GatewayPlistPath := some ["home", "Library", "LaunchAgents", "ai.openclaw.gateway.plist"],
    DoctorCmd := ["openclaw", "doctor", "--non-interactive"],
    StatusCmd := ["openclaw", "status", "--deep"],
    HealthTimeoutSeconds := 20, RestartBackoffSeconds := 8, MaxRestartAttempts := 2,
    ConfigPath := ["home", ".openclaw", "openclaw.json"],
    BackupDir := ["home", ".openclaw-guardian", "backups"],
    StatePath := ["home", ".openclaw-guardian", "state.json"],
    AutoRollback := true,
    LogPath := ["home", ".openclaw-guardian", "guardian.log"],
    LogToStdout := false, VerboseLogs := false, LogHealthOk := false }

def backupsDir : Path := ["home", ".openclaw-guardian", "backups"]

def openclawDir : Path := ["home", ".openclaw"]

def plistPath : Path := ["home", "Library", "LaunchAgents", "ai.openclaw.gateway.plist"]

/-- The filesystem holding exactly the listed nodes. -/
def fsOf (nodes : List (Path × Node)) : FS := fun p =>
  (nodes.find? (fun x => decide (x.1 = p))).map (fun x => x.2)

/-- Three backups `a`, `b`, `c` modified at times 1, 2, 3, and nothing else. -/
def fsThree : FS :=
  fsOf [([], Node.dir 0 ["home"]),
    (["home"], Node.dir 0 [".openclaw-guardian"]),
    (["home", ".openclaw-guardian"], Node.dir 0 ["backups"]),
    (backupsDir, Node.dir 9 ["a", "b", "c"]),
    (backupsDir ++ ["a"], Node.file 1 [10]),
    (backupsDir ++ ["b"], Node.file 2 [20]),
    (backupsDir ++ ["c"], Node.file 3 [30])]

/-- Two backups and the marker `openclaw.good.latest` in the backup directory. -/
def fsMarker : FS :=
  fsOf [([], Node.dir 0 ["home"]),
    (["home"], Node.dir 0 [".openclaw-guardian"]),
    (["home", ".openclaw-guardian"], Node.dir 0 ["backups"]),
    (backupsDir, Node.dir 9 ["a", "b", "openclaw.good.latest"]),
    (backupsDir ++ ["a"], Node.file 1 [10]),
    (backupsDir ++ ["b"], Node.file 2 [20]),
    (backupsDir ++ ["openclaw.good.latest"], Node.file 3 [30])]

/-- The managed config and its native backup `openclaw.json.bak`, no guardian backup. -/
def fsBak : FS :=
  fsOf [([], Node.dir 0 ["home"]),
    (["home"], Node.dir 0 [".openclaw"]),
    (openclawDir, Node.dir 9 ["openclaw.json", "openclaw.json.bak"]),
    (openclawDir ++ ["openclaw.json"], Node.file 7 [1, 2]),
    (openclawDir ++ ["openclaw.json.bak"], Node.file 5 [1])]

/-- A configuration whose config directory is the pattern `/home/?` and whose backup
directory is `/home/b`. -/
def cfgQuestion : Config :=
  { cfg0 with ConfigPath := ["home", "?", "openclaw.json"], BackupDir := ["home", "b"] }

/-- The directory `/home/b` holding `openclaw.json.bak1`, `x` and `y`, modified at times
1, 2 and 3. -/
def fsQuestion : FS :=
  fsOf [([], Node.dir 0 ["home"]),
    (["home"], Node.dir 0 ["b"]),
    (["home", "b"], Node.dir 9 ["openclaw.json.bak1", "x", "y"]),
    (["home", "b", "openclaw.json.bak1"], Node.file 1 [10]),
    (["home", "b", "x"], Node.file 2 [20]),
    (["home", "b", "y"], Node.file 3 [30])]

/-- Collaborators whose Glob expands the directory pattern `/home/?` to `/home/b`, as Go
does in `fsQuestion`, and so matches `/home/b/openclaw.json.bak1`. -/
def sysQuestion : Sys :=
  { sha256Hex := fun d => String.mk (d.map Char.ofNat), marshalState := fun _ => [],
    timestamp := fun _ => "20260101-120000", uid := 501,
    exec := fun w _ _ =>
      { stdout := "", stderr := "", outcome := ProcOutcome.exited 0, fs := w.fs, elapsed := 1 },
    globExpand := fun _ d _ =>
      if d = ["home", "?"] then some [["home", "b", "openclaw.json.bak1"]] else some [] }

/-- A stand-in digest for concrete runs: the bytes read as characters. -/
def digestToy (d : List Nat) : String := String.mk (d.map Char.ofNat)

/-- Collaborators for concrete runs, for a given behaviour of external processes. -/
def sysWith (exec : World → Int → List String → ProcResult) : Sys :=
  { sha256Hex := digestToy, marshalState := fun _ => [], timestamp := fun _ => "20260101-120000",
    uid := 501, exec := exec, globExpand := fun _ _ _ => some [] }

/-- Every external process exits at once with status 0 and no output. -/
def sysQuiet : Sys :=
  sysWith (fun w _ _ =>
    { stdout := "", stderr := "", outcome := ProcOutcome.exited 0, fs := w.fs, elapsed := 1 })

/-- Every external process exits with status 1 and a message on stderr. -/
def sysExitOne : Sys :=
  sysWith (fun w _ _ =>
    { stdout := "", stderr := "boom", outcome := ProcOutcome.exited 1, fs := w.fs, elapsed := 1 })

/-- The nodes of a home directory holding the managed config (bytes `[2]`) and one
known-good backup (bytes `[1]`) in the backup directory. -/
def homeNodes : List (Path × Node) :=
  [(openclawDir, Node.dir 0 ["openclaw.json"]),
    (openclawDir ++ ["openclaw.json"], Node.file 50 [2]),
    (["home", ".openclaw-guardian"], Node.dir 0 ["backups"]),
    (backupsDir, Node.dir 0 ["openclaw.good.20250101-000000"]),
    (backupsDir ++ ["openclaw.good.20250101-000000"], Node.file 10 [1])]

/-- The home directory of `homeNodes`, without a gateway plist. -/
def fsHome : FS :=
  fsOf ([([], Node.dir 0 ["home"]),
    (["home"], Node.dir 0 [".openclaw", ".openclaw-guardian"])] ++ homeNodes)

/-- The home directory of `homeNodes` with the gateway plist installed. -/
def fsPlist : FS :=
  fsOf ([([], Node.dir 0 ["home"]),
    (["home"], Node.dir 0 [".openclaw", ".openclaw-guardian", "Library"]),
    (["home", "Library"], Node.dir 0 ["LaunchAgents"]),
    (["home", "Library", "LaunchAgents"], Node.dir 0 ["ai.openclaw.gateway.plist"]),
    (plistPath, Node.file 5 [7])] ++ homeNodes)

/-- A home directory holding the managed config and no backup of any kind. -/
def fsBare : FS :=
  fsOf [([], Node.dir 0 ["home"]),
    (["home"], Node.dir 0 [".openclaw"]),
    (openclawDir, Node.dir 0 ["openclaw.json"]),
    (openclawDir ++ ["openclaw.json"], Node.file 50 [2])]

def worldHome : World := { fs := fsHome, now := 100, trace := [] }

/-- A state recorded when the config had the bytes `[1]` of the known-good backup. -/
def stateOld : State :=
  { LastConfigHash := digestToy [1], LastBackup := none,
    LastGoodBackup := some (backupsDir ++ ["openclaw.good.20250101-000000"]) }

/-- What a process that succeeds silently does in the world `w`. -/
def procOk (w : World) : ProcResult :=
  { stdout := "", stderr := "", outcome := ProcOutcome.exited 0, fs := w.fs, elapsed := 1 }

/-- What a process that fails with the message `msg` on stderr does in the world `w`. -/
def procFail (w : World) (msg : String) : ProcResult :=
  { stdout := "", stderr := msg, outcome := ProcOutcome.exited 1, fs := w.fs, elapsed := 1 }

/-- The gateway is stopped: every command is refused until a start action was taken. -/
def sysStartHeals : Sys :=
  sysWith (fun w _ _ =>
    if Event.cmd Action.start ∈ w.trace then procOk w
    else procFail w "Error: Connection refused")

/-- The gateway service is not registered: every command reports so until a bootstrap
action was taken. -/
def sysNotLoaded : Sys :=
  sysWith (fun w _ _ =>
    if Event.cmd Action.bootstrap ∈ w.trace then procOk w
    else procFail w "Gateway service not loaded")

/-- The config is bad: every command fails until some file was copied onto the managed
config. -/
def sysNeedsRollback : Sys :=
  sysWith (fun w _ _ =>
    if w.trace.any (fun e => e.isCopyTo cfg0.ConfigPath) then procOk w
    else procFail w "gateway unhealthy")

/-- Every command fails, whatever is done. -/
def sysDead : Sys := sysWith (fun w _ _ => procFail w "gateway unhealthy")

/-- A state recorded for the current bytes `[2]` of the config. -/
def stateCur : State :=
  { LastConfigHash := digestToy [2], LastBackup := none,
    LastGoodBackup := some (backupsDir ++ ["openclaw.good.20250101-000000"]) }

def loopHome : Loop := { st := stateCur, lastHealthy := true, w := worldHome }

def loopPlist : Loop :=
  { st := stateCur, lastHealthy := true, w := { fs := fsPlist, now := 100, trace := [] } }

def loopBare : Loop :=
  { st := stateCur, lastHealthy := true, w := { fs := fsBare, now := 100, trace := [] } }

/-! ## Lemmas on sorting -/

theorem insertLess_perm {α : Type} (less : α → α → Bool) (x : α) (l : List α) :
    (insertLess less x l).Perm (x :: l) := by
  induction l with
  | nil => simp [insertLess]
  | cons y ys ih =>
    unfold insertLess
    split
    · exact List.Perm.refl _
    · exact ((List.Perm.cons y ih).trans (List.Perm.swap x y ys))

theorem foldl_insertLess_perm {α : Type} (less : α → α → Bool) (l acc : List α) :
    (l.foldl (fun acc x => insertLess less x acc) acc).Perm (acc ++ l) := by
  induction l generalizing acc with
  | nil => simp
  | cons x xs ih =>
    simp only [List.foldl_cons]
    refine (ih _).trans ?_
    refine ((insertLess_perm less x acc).append_right xs).trans ?_
    simpa using (@List.perm_middle _ x acc xs).symm

theorem sortSlice_perm {α : Type} (less : α → α → Bool) (l : List α) :
    (sortSlice less l).Perm l := by
  simpa [sortSlice] using foldl_insertLess_perm less l []

theorem addFile_eq_of_regular (fs : FS) (p : Path) (m : Nat) (d : List Nat)
    (h : fs p = some (Node.file m d)) : addFile fs p = [{ path := p, mod := m }] := by
  simp [addFile, osStat, h]

theorem addFile_eq_nil_of_not_regular (fs : FS) (p : Path) (h : isRegular fs p = false) :
    addFile fs p = [] := by
  cases hfs : fs p with
  | none => simp [addFile, osStat, hfs]
  | some n => cases n <;> simp [addFile, osStat, isRegular, hfs] at h ⊢

theorem pathString_ne_empty (p : Path) : pathString p ≠ "" := by
  intro h
  have h2 := congrArg String.length h
  simp only [pathString, String.length_append] at h2
  have h3 : "/".length = 1 := by decide
  have h4 : "".length = 0 := by decide
  omega

theorem filepathJoin_injective (d : Path) : Function.Injective (filepathJoin d) := by
  intro a b h
  simpa [filepathJoin] using h

theorem filepathJoin_ne_of_dir_ne (d1 d2 : Path) (n1 n2 : String) (h : d1 ≠ d2) :
    filepathJoin d1 n1 ≠ filepathJoin d2 n2 := by
  intro he
  have h2 := congrArg List.dropLast he
  simp [filepathJoin] at h2
  exact h h2

theorem addFile_paths_sublist (fs : FS) (ps : List Path) :
    ((ps.flatMap (addFile fs)).map (fun e => e.path)).Sublist ps := by
  induction ps with
  | nil => simp
  | cons p ps ih =>
    simp only [List.flatMap_cons, List.map_append]
    cases hfs : fs p with
    | none => simpa [addFile, osStat, hfs] using ih.cons p
    | some n =>
      cases n with
      | file m d => simpa [addFile, osStat, hfs] using ih.cons₂ p
      | dir m names => simpa [addFile, osStat, hfs] using ih.cons p
      | denied => simpa [addFile, osStat, hfs] using ih.cons p

theorem dirNames_nodup (fs : FS) (d : Path) (l : List String) (h : dirNames fs d = some l) :
    l.Nodup := by
  unfold dirNames at h
  split at h
  · cases h; exact List.nodup_dedup _
  · cases h

theorem scan_paths_sublist (fs : FS) (cfg : Config) :
    ∃ l : List String, l.Nodup ∧
      ((scanBackupDir fs cfg).map (fun e => e.path)).Sublist
        (l.map (filepathJoin cfg.BackupDir)) := by
  cases hl : dirNames fs cfg.BackupDir with
  | none => exact ⟨[], List.nodup_nil, by simp [scanBackupDir, osReadDir, hl]⟩
  | some l =>
    refine ⟨l, dirNames_nodup fs _ l hl, ?_⟩
    unfold scanBackupDir osReadDir
    rw [hl]
    simp only [Option.map_some']
    have h1 := addFile_paths_sublist fs
      (((l.map (dirEntryOf fs cfg.BackupDir)).filter (fun e => !e.isDir)).map
        (fun e => filepathJoin cfg.BackupDir e.name))
    rw [List.flatMap_map] at h1
    refine h1.trans ?_
    have h2 := (List.filter_sublist (p := fun e : DirEntry => !e.isDir)
      (l.map (dirEntryOf fs cfg.BackupDir))).map (fun e => filepathJoin cfg.BackupDir e.name)
    simpa [List.map_map, Function.comp_def, dirEntryOf] using h2

/-- Without pattern characters in the config directory, the Glob call lists that
directory. -/
theorem globMatches_of_no_meta (sys : Sys) (fs : FS) (cfg : Config)
    (hmeta : hasMeta (filepathDir cfg.ConfigPath) = false) :
    globMatches sys fs cfg = globDir fs (filepathDir cfg.ConfigPath) "openclaw.json.bak" := by
  simp [globMatches, filepathGlob, hmeta]

theorem glob_paths_sublist (fs : FS) (d : Path) :
    ∃ l : List String, l.Nodup ∧
      (((globDir fs d "openclaw.json.bak").flatMap (addFile fs)).map
        (fun e => e.path)).Sublist (l.map (filepathJoin d)) := by
  cases hl : dirNames fs d with
  | none => exact ⟨[], List.nodup_nil, by simp [globDir, hl]⟩
  | some l =>
    refine ⟨l, dirNames_nodup fs _ l hl, ?_⟩
    unfold globDir
    rw [hl]
    simp only
    refine (addFile_paths_sublist fs _).trans ?_
    exact (List.filter_sublist _).map _

theorem collectEntries_paths_nodup (sys : Sys) (fs : FS) (cfg : Config)
    (hmeta : hasMeta (filepathDir cfg.ConfigPath) = false)
    (ha : isRegular fs (filepathJoin (filepathDir cfg.ConfigPath) "openclaw.json.bak") = false)
    (hb : isRegular fs (filepathJoin cfg.BackupDir "openclaw.good.latest") = false)
    (hc : cfg.BackupDir ≠ filepathDir cfg.ConfigPath) :
    ((collectEntries sys fs cfg).map (fun e => e.path)).Nodup := by
  obtain ⟨l1, hn1, hs1⟩ := scan_paths_sublist fs cfg
  obtain ⟨l2, hn2, hs2⟩ := glob_paths_sublist fs (filepathDir cfg.ConfigPath)
  unfold collectEntries
  simp only
  rw [globMatches_of_no_meta sys fs cfg hmeta, addFile_eq_nil_of_not_regular fs _ ha,
    addFile_eq_nil_of_not_regular fs _ hb]
  simp only [ite_self, List.append_nil, List.map_append]
  have hd1 : (l1.map (filepathJoin cfg.BackupDir)).Nodup :=
    hn1.map (filepathJoin_injective _)
  have hd2 : (l2.map (filepathJoin (filepathDir cfg.ConfigPath))).Nodup :=
    hn2.map (filepathJoin_injective _)
  refine List.Nodup.append (hd1.sublist hs1) (hd2.sublist hs2) ?_
  intro p hp1 hp2
  obtain ⟨n1, _, rfl⟩ := List.mem_map.mp (hs1.subset hp1)
  obtain ⟨n2, _, he⟩ := List.mem_map.mp (hs2.subset hp2)
  exact filepathJoin_ne_of_dir_ne _ _ _ _ hc he.symm

theorem candidateBackups_perm (sys : Sys) (fs : FS) (cfg : Config) :
    (candidateBackups sys fs cfg).Perm
      ((collectEntries sys fs cfg).map (fun e => e.path)) := by
  unfold candidateBackups
  simp only
  split
  · rename_i h
    rw [List.length_eq_zero.mp h]
    simp
  · exact (sortSlice_perm modAfter _).map _

theorem sublist_pair_of_perm {α : Type} [DecidableEq α] (x : α) (l₁ l₂ : List α)
    (hp : l₁.Perm l₂) (h : [x, x].Sublist l₁) : [x, x].Sublist l₂ := by
  rw [← List.duplicate_iff_sublist, List.duplicate_iff_two_le_count] at *
  rw [← hp.count_eq]
  exact h

theorem pair_sublist_candidateBackups (sys : Sys) (fs : FS) (cfg : Config) (e : backupEntry)
    (h : [e, e].Sublist (collectEntries sys fs cfg)) :
    [e.path, e.path].Sublist (candidateBackups sys fs cfg) :=
  sublist_pair_of_perm _ _ _ (candidateBackups_perm sys fs cfg).symm
    (by simpa using h.map (fun e : backupEntry => e.path))

theorem mem_glob_addFile (fs : FS) (d : Path) (l : List String) (n : String) (m : Nat)
    (dat : List Nat) (hl : dirNames fs d = some l) (hn : n ∈ l)
    (hpre : hasPrefix n "openclaw.json.bak" = true)
    (hf : fs (filepathJoin d n) = some (Node.file m dat)) :
    (⟨filepathJoin d n, m⟩ : backupEntry) ∈
      (globDir fs d "openclaw.json.bak").flatMap (addFile fs) := by
  rw [List.mem_flatMap]
  refine ⟨filepathJoin d n, ?_, ?_⟩
  · unfold globDir
    rw [hl]
    exact List.mem_map.mpr ⟨n, List.mem_filter.mpr ⟨hn, hpre⟩, rfl⟩
  · rw [addFile_eq_of_regular fs _ m dat hf]
    simp

theorem mem_scanBackupDir (fs : FS) (cfg : Config) (l : List String) (n : String) (m : Nat)
    (dat : List Nat) (hl : dirNames fs cfg.BackupDir = some l) (hn : n ∈ l)
    (hf : fs (filepathJoin cfg.BackupDir n) = some (Node.file m dat)) :
    (⟨filepathJoin cfg.BackupDir n, m⟩ : backupEntry) ∈ scanBackupDir fs cfg := by
  unfold scanBackupDir osReadDir
  rw [hl]
  simp only [Option.map_some', List.mem_flatMap]
  refine ⟨dirEntryOf fs cfg.BackupDir n, ?_, ?_⟩
  · refine List.mem_filter.mpr ⟨List.mem_map.mpr ⟨n, hn, rfl⟩, ?_⟩
    simp [dirEntryOf, nodeIsDir, hf]
  · simp only [dirEntryOf]
    rw [addFile_eq_of_regular fs _ m dat hf]
    simp

/-- When the config directory is read by Glob as a pattern that matches the backup
directory, a scanned backup is found a second time by Glob and returned twice. -/
theorem candidateBackups_glob_refinds :
    hasMeta (filepathDir cfgQuestion.ConfigPath) = true ∧
      candidateBackups sysQuestion fsQuestion cfgQuestion =
        [["home", "b", "y"], ["home", "b", "x"], ["home", "b", "openclaw.json.bak1"],
          ["home", "b", "openclaw.json.bak1"]] := by
  refine ⟨by decide, by decide⟩

/-! ## C1: ordering of the rollback candidates -/

/-- C2 as stated fails: with the marker `openclaw.good.latest` in the backup directory,
and with a native backup `openclaw.json.bak` next to the config, the same path is
returned twice. -/
theorem candidateBackups_duplicates :
    candidateBackups sysQuiet fsMarker cfg0 =
        [backupsDir ++ ["openclaw.good.latest"], backupsDir ++ ["openclaw.good.latest"],
          backupsDir ++ ["b"], backupsDir ++ ["a"]] ∧
      ¬ (candidateBackups sysQuiet fsMarker cfg0).Nodup ∧
      candidateBackups sysQuiet fsBak cfg0 =
        [openclawDir ++ ["openclaw.json.bak"], openclawDir ++ ["openclaw.json.bak"]] ∧
      ¬ (candidateBackups sysQuiet fsBak cfg0).Nodup := by
  refine ⟨by decide, by decide, by decide, by decide⟩

/-- C2 amended: `candidateBackups` returns one entry per source that finds a file.
When the config directory holds no pattern character of `filepath.Glob` (`*`, `?`, `[`,
backslash): no path occurs more than once provided `<config dir>/openclaw.json.bak` and
`<backup dir>/openclaw.good.latest` are not regular files and the backup directory is
not the config directory, and a listed regular `<config dir>/openclaw.json.bak` occurs
at least twice.  For every config directory, a listed regular
`<backup dir>/openclaw.good.latest` occurs at least twice. -/
theorem candidateBackups_nodup_unless_refound (sys : Sys) (fs : FS) (cfg : Config) :
    (hasMeta (filepathDir cfg.ConfigPath) = false →
      isRegular fs (filepathJoin (filepathDir cfg.ConfigPath) "openclaw.json.bak") = false →
      isRegular fs (filepathJoin cfg.BackupDir "openclaw.good.latest") = false →
      cfg.BackupDir ≠ filepathDir cfg.ConfigPath →
      (candidateBackups sys fs cfg).Nodup) ∧
    (hasMeta (filepathDir cfg.ConfigPath) = false →
      ∀ l, dirNames fs (filepathDir cfg.ConfigPath) = some l → "openclaw.json.bak" ∈ l →
      isRegular fs (filepathJoin (filepathDir cfg.ConfigPath) "openclaw.json.bak") = true →
      [filepathJoin (filepathDir cfg.ConfigPath) "openclaw.json.bak",
        filepathJoin (filepathDir cfg.ConfigPath) "openclaw.json.bak"].Sublist
          (candidateBackups sys fs cfg)) ∧
    (∀ l, dirNames fs cfg.BackupDir = some l → "openclaw.good.latest" ∈ l →
      isRegular fs (filepathJoin cfg.BackupDir "openclaw.good.latest") = true →
      [filepathJoin cfg.BackupDir "openclaw.good.latest",
        filepathJoin cfg.BackupDir "openclaw.good.latest"].Sublist
          (candidateBackups sys fs cfg)) := by
  refine ⟨?_, ?_, ?_⟩
  · intro hmeta ha hb hc
    exact (candidateBackups_perm sys fs cfg).nodup_iff.mpr
      (collectEntries_paths_nodup sys fs cfg hmeta ha hb hc)
  · intro hmeta l hl hn hreg
    cases hfs : fs (filepathJoin (filepathDir cfg.ConfigPath) "openclaw.json.bak") with
    | none => simp [isRegular, hfs] at hreg
    | some nd =>
      cases nd with
      | dir m names => simp [isRegular, hfs] at hreg
      | denied => simp [isRegular, hfs] at hreg
      | file m dat =>
        have h1 := mem_glob_addFile fs _ l _ m dat hl hn (by decide) hfs
        refine pair_sublist_candidateBackups sys fs cfg
          ⟨filepathJoin (filepathDir cfg.ConfigPath) "openclaw.json.bak", m⟩ ?_
        unfold collectEntries
        simp only [addFile_eq_of_regular fs _ m dat hfs,
          globMatches_of_no_meta sys fs cfg hmeta]
        refine List.Sublist.trans ?_ (List.sublist_append_left _ _)
        have h2 : [(⟨filepathJoin (filepathDir cfg.ConfigPath) "openclaw.json.bak", m⟩ :
              backupEntry)].Sublist
            (scanBackupDir fs cfg ++
              (globDir fs (filepathDir cfg.ConfigPath) "openclaw.json.bak").flatMap
                (addFile fs)) :=
          (List.singleton_sublist.mpr h1).trans (List.sublist_append_right _ _)
        exact List.Sublist.append h2 (List.Sublist.refl _)
  · intro l hl hn hreg
    cases hfs : fs (filepathJoin cfg.BackupDir "openclaw.good.latest") with
    | none => simp [isRegular, hfs] at hreg
    | some nd =>
      cases nd with
      | dir m names => simp [isRegular, hfs] at hreg
      | denied => simp [isRegular, hfs] at hreg
      | file m dat =>
        have h1 := mem_scanBackupDir fs cfg l _ m dat hl hn hfs
        refine pair_sublist_candidateBackups sys fs cfg
          ⟨filepathJoin cfg.BackupDir "openclaw.good.latest", m⟩ ?_
        unfold collectEntries
        simp only [addFile_eq_of_regular fs _ m dat hfs, if_pos (pathString_ne_empty _)]
        have h2 : [(⟨filepathJoin cfg.BackupDir "openclaw.good.latest", m⟩ : backupEntry)].Sublist
            (scanBackupDir fs cfg ++ (globMatches sys fs cfg).flatMap (addFile fs) ++
              addFile fs (filepathJoin (filepathDir cfg.ConfigPath) "openclaw.json.bak")) :=
          ((List.singleton_sublist.mpr h1).trans (List.sublist_append_left _ _)).trans
            (List.sublist_append_left _ _)
        exact List.Sublist.append h2 (List.Sublist.refl _)

/-- Witness for C2 amended: three plain backups are returned without repetition, while
the native backup and the marker are each returned twice. -/
theorem candidateBackups_nodup_unless_refound_witness :
    (candidateBackups sysQuiet fsThree cfg0).Nodup ∧
      [openclawDir ++ ["openclaw.json.bak"], openclawDir ++ ["openclaw.json.bak"]].Sublist
        (candidateBackups sysQuiet fsBak cfg0) ∧
      [backupsDir ++ ["openclaw.good.latest"],
        backupsDir ++ ["openclaw.good.latest"]].Sublist
          (candidateBackups sysQuiet fsMarker cfg0) :=
  ⟨(candidateBackups_nodup_unless_refound sysQuiet fsThree cfg0).1 (by decide) (by decide)
      (by decide) (by decide),
    (candidateBackups_nodup_unless_refound sysQuiet fsBak cfg0).2.1 (by decide)
      ["openclaw.json", "openclaw.json.bak"] (by decide) (by decide) (by decide),
    (candidateBackups_nodup_unless_refound sysQuiet fsMarker cfg0).2.2
      ["a", "b", "openclaw.good.latest"] (by decide) (by decide) (by decide)⟩

/-! ## Lemmas on the snapshot step -/

theorem backupIfChanged_ok_spec (sys : Sys) (cfg : Config) (st : State) (w : World)
    (hex : ∃ i, osStat w.fs cfg.ConfigPath = .ok i)
    (hok : (backupIfChanged sys cfg st w).1.2 = none) :
    ∃ m d, w.fs cfg.ConfigPath = some (Node.file m d) ∧
      (backupIfChanged sys cfg st w).1.1.LastConfigHash = sys.sha256Hex d ∧
      (backupIfChanged sys cfg st w).1.1.LastGoodBackup = st.LastGoodBackup := by
  obtain ⟨i, hi⟩ := hex
  cases hfs : w.fs cfg.ConfigPath with
  | none => simp [osStat, hfs] at hi
  | some nd =>
    cases nd with
    | denied => simp [osStat, hfs] at hi
    | dir m names => simp [backupIfChanged, osStat, fileHash, hfs] at hok
    | file m d =>
      refine ⟨m, d, rfl, ?_⟩
      simp only [backupIfChanged, osStat, fileHash, hfs] at hok ⊢
      by_cases hh : sys.sha256Hex d = st.LastConfigHash
      · simp [hh]
      · simp only [hh, if_false] at hok ⊢
        cases hE : ensureDir w.fs w.now cfg.BackupDir with
        | none => simp [hE] at hok
        | some fs1 =>
          simp only [hE] at hok ⊢
          split at hok
          · simp at hok
          · rename_i heq
            simp [heq]

/-! ## Lemmas: file operations leave other regular files alone -/

theorem setNode_of_ne (fs : FS) (p q : Path) (n : Node) (h : q ≠ p) :
    setNode fs p n q = fs q := by
  simp [setNode, h]

theorem linkChild_file (fs : FS) (now : Nat) (p q : Path) (m : Nat) (d : List Nat)
    (h : fs q = some (Node.file m d)) : linkChild fs now p q = some (Node.file m d) := by
  cases hl : p.getLast? with
  | none => simpa [linkChild, hl] using h
  | some n =>
    cases hd : fs (filepathDir p) with
    | none => simpa [linkChild, hl, hd] using h
    | some nd =>
      cases nd with
      | file m2 d2 => simpa [linkChild, hl, hd] using h
      | denied => simpa [linkChild, hl, hd] using h
      | dir m2 names =>
        have hne : q ≠ filepathDir p := by
          intro he
          rw [he, hd] at h
          cases h
        simp only [linkChild, hl, hd]
        rw [setNode_of_ne _ _ _ _ hne]
        exact h

theorem mkdirOne_file (fs fs1 : FS) (now : Nat) (p q : Path) (m : Nat) (d : List Nat)
    (h1 : mkdirOne fs now p = some fs1) (h : fs q = some (Node.file m d)) :
    fs1 q = some (Node.file m d) := by
  unfold mkdirOne at h1
  split at h1
  · cases h1; exact h
  · cases h1
  · rename_i hnone
    cases h1
    apply linkChild_file
    have hne : q ≠ p := by
      intro he
      rw [he, hnone] at h
      cases h
    rw [setNode_of_ne _ _ _ _ hne]
    exact h

theorem foldl_mkdirOne_file (now : Nat) (q : Path) (m : Nat) (d : List Nat)
    (l : List Path) (acc : Option FS) (fs1 : FS)
    (h1 : l.foldl (fun acc q => acc.bind (fun g => mkdirOne g now q)) acc = some fs1)
    (h : ∀ g, acc = some g → g q = some (Node.file m d)) :
    fs1 q = some (Node.file m d) := by
  induction l generalizing acc with
  | nil => exact h fs1 (by simpa using h1)
  | cons x xs ih =>
    simp only [List.foldl_cons] at h1
    refine ih _ h1 ?_
    intro g hg
    cases acc with
    | none => simp at hg
    | some g0 =>
      simp only [Option.some_bind] at hg
      exact mkdirOne_file g0 g now x q m d hg (h g0 rfl)

theorem ensureDir_file (fs fs1 : FS) (now : Nat) (p q : Path) (m : Nat) (d : List Nat)
    (h1 : ensureDir fs now p = some fs1) (h : fs q = some (Node.file m d)) :
    fs1 q = some (Node.file m d) := by
  unfold ensureDir osMkdirAll at h1
  split at h1
  · cases h1; exact h
  · exact foldl_mkdirOne_file now q m d _ _ fs1 h1 (fun g hg => by cases hg; exact h)

theorem openTrunc_file (fs fs1 : FS) (now : Nat) (p q : Path) (m : Nat) (d : List Nat)
    (h1 : openTrunc fs now p = some fs1) (hne : q ≠ p) (h : fs q = some (Node.file m d)) :
    fs1 q = some (Node.file m d) := by
  unfold openTrunc at h1
  split at h1
  · cases h1
    rw [setNode_of_ne _ _ _ _ hne]
    exact h
  · cases h1
  · split at h1
    · cases h1
      apply linkChild_file
      rw [setNode_of_ne _ _ _ _ hne]
      exact h
    · cases h1

theorem copyFileFS_file (fs : FS) (now : Nat) (src dst q : Path) (m : Nat) (d : List Nat)
    (hne : q ≠ dst) (h : fs q = some (Node.file m d)) :
    (copyFileFS fs now src dst).2 q = some (Node.file m d) := by
  unfold copyFileFS
  split
  · exact h
  · exact h
  · cases hE : ensureDir fs now (filepathDir dst) with
    | none => exact h
    | some fs1 =>
      have h1 := ensureDir_file fs fs1 now _ q m d hE h
      simp only
      cases hO : openTrunc fs1 now dst with
      | none => exact h1
      | some fs2 =>
        have h2 := openTrunc_file fs1 fs2 now dst q m d hO hne h1
        simp only
        split
        · simp only
          rw [setNode_of_ne _ _ _ _ hne]
          exact h2
        · exact h2

theorem copyFile_file (w : World) (src dst q : Path) (m : Nat) (d : List Nat)
    (hne : q ≠ dst) (h : w.fs q = some (Node.file m d)) :
    (copyFile w src dst).2.fs q = some (Node.file m d) := by
  simp only [copyFile]
  exact copyFileFS_file w.fs w.now src dst q m d hne h

theorem copyFile_trace (w : World) (src dst : Path) :
    (copyFile w src dst).2.trace = w.trace ++ [Event.copy src dst] := by
  simp [copyFile, World.emit]

theorem backupIfChanged_world (sys : Sys) (cfg : Config) (st : State) (w : World)
    (m : Nat) (d : List Nat) (hfs : w.fs cfg.ConfigPath = some (Node.file m d))
    (hok : (backupIfChanged sys cfg st w).1.2 = none) :
    (backupPathAt sys cfg w.now ≠ cfg.ConfigPath →
      (backupIfChanged sys cfg st w).2.fs cfg.ConfigPath = some (Node.file m d)) ∧
    (backupIfChanged sys cfg st w).2.trace =
      w.trace ++ (if hashUnchanged sys cfg st w.fs then []
        else [Event.copy cfg.ConfigPath (backupPathAt sys cfg w.now)]) := by
  simp only [backupIfChanged, osStat, fileHash, hfs, hashUnchanged, backupPathAt] at hok ⊢
  by_cases hh : sys.sha256Hex d = st.LastConfigHash
  · simp [hh, hfs]
  · simp only [hh, if_false, decide_False] at hok ⊢
    cases hE : ensureDir w.fs w.now cfg.BackupDir with
    | none => simp [hE] at hok
    | some fs1 =>
      simp only [hE] at hok ⊢
      have hf1 := ensureDir_file w.fs fs1 w.now _ _ m d hE hfs
      split at hok
      · simp at hok
      · rename_i w2 heq
        have hw2 : w2 = (copyFile { w with fs := fs1 } cfg.ConfigPath
            (filepathJoin cfg.BackupDir ("openclaw.json." ++ sys.timestamp w.now))).2 := by
          rw [heq]
        simp only [heq]
        constructor
        · intro hne
          rw [hw2]
          exact copyFile_file _ _ _ _ m d (Ne.symm hne) hf1
        · rw [hw2, copyFile_trace]
          simp

theorem backupIfChanged_again (sys : Sys) (cfg : Config) (st : State) (w w2 : World)
    (hex : ∃ i, osStat w.fs cfg.ConfigPath = .ok i)
    (hok : (backupIfChanged sys cfg st w).1.2 = none)
    (hsame : w2.fs cfg.ConfigPath = w.fs cfg.ConfigPath) :
    backupIfChanged sys cfg (backupIfChanged sys cfg st w).1.1 w2 =
      (((backupIfChanged sys cfg st w).1.1, none), w2) := by
  obtain ⟨m, d, hfs, hh, _⟩ := backupIfChanged_ok_spec sys cfg st w hex hok
  rw [hfs] at hsame
  generalize (backupIfChanged sys cfg st w).1.1 = st1 at hh ⊢
  simp [backupIfChanged, osStat, fileHash, hsame, hh]

theorem recordLastGood_again (sys : Sys) (cfg : Config) (st : State) (w w2 : World)
    (hgood : st.LastGoodBackup ≠ none)
    (hex : ∃ i, osStat w.fs cfg.ConfigPath = .ok i)
    (hok : (backupIfChanged sys cfg st w).1.2 = none)
    (hsame : w2.fs cfg.ConfigPath = w.fs cfg.ConfigPath) :
    recordLastGood sys cfg (backupIfChanged sys cfg st w).1.1 w2 =
      ((backupIfChanged sys cfg st w).1.1, w2) := by
  obtain ⟨m, d, hfs, hh, hg⟩ := backupIfChanged_ok_spec sys cfg st w hex hok
  rw [hfs] at hsame
  rw [← hg] at hgood
  generalize (backupIfChanged sys cfg st w).1.1 = st1 at hh hgood ⊢
  simp [recordLastGood, osStat, fileHash, hsame, hh, hgood]

/-! ## C3: the snapshot step is idempotent -/

/-- C3: when the managed config file exists and `backupIfChanged` returns `st1` without
error, a second call with `st1` in any world where the config file is as it was returns
`st1` and leaves the world untouched (no file created or overwritten, no effect); this
covers the world left by the first call whenever the backup was not written onto the
config file itself.  The first call copies the config to one backup exactly when the
digest differed from `st.LastConfigHash`, and copies nothing otherwise. -/
theorem backupIfChanged_idempotent (sys : Sys) (cfg : Config) (st : State) (w : World)
    (hex : ∃ i, osStat w.fs cfg.ConfigPath = .ok i)
    (hok : (backupIfChanged sys cfg st w).1.2 = none) :
    (∀ w2 : World, w2.fs cfg.ConfigPath = w.fs cfg.ConfigPath →
      backupIfChanged sys cfg (backupIfChanged sys cfg st w).1.1 w2 =
        (((backupIfChanged sys cfg st w).1.1, none), w2)) ∧
    (backupPathAt sys cfg w.now ≠ cfg.ConfigPath →
      backupIfChanged sys cfg (backupIfChanged sys cfg st w).1.1
          (backupIfChanged sys cfg st w).2 =
        (((backupIfChanged sys cfg st w).1.1, none), (backupIfChanged sys cfg st w).2)) ∧
    (backupIfChanged sys cfg st w).2.trace =
      w.trace ++ (if hashUnchanged sys cfg st w.fs then []
        else [Event.copy cfg.ConfigPath (backupPathAt sys cfg w.now)]) := by
  obtain ⟨m, d, hfs, _, _⟩ := backupIfChanged_ok_spec sys cfg st w hex hok
  have hw := backupIfChanged_world sys cfg st w m d hfs hok
  refine ⟨fun w2 h2 => backupIfChanged_again sys cfg st w w2 hex hok h2, ?_, hw.2⟩
  intro hne
  exact backupIfChanged_again sys cfg st w _ hex hok ((hw.1 hne).trans hfs.symm)

/-- Witness for C3: in `worldHome` the config changed since `stateOld`; the first call
writes one backup and the second call, run in the world the first one left, does
nothing. -/
theorem backupIfChanged_idempotent_witness :
    (backupIfChanged sysQuiet cfg0 stateOld worldHome).2.trace =
        [Event.copy cfg0.ConfigPath (backupsDir ++ ["openclaw.json.20260101-120000"])] ∧
      backupIfChanged sysQuiet cfg0 (backupIfChanged sysQuiet cfg0 stateOld worldHome).1.1
          (backupIfChanged sysQuiet cfg0 stateOld worldHome).2 =
        (((backupIfChanged sysQuiet cfg0 stateOld worldHome).1.1, none),
          (backupIfChanged sysQuiet cfg0 stateOld worldHome).2) :=
  ⟨by decide,
    (backupIfChanged_idempotent sysQuiet cfg0 stateOld worldHome ⟨_, rfl⟩ (by decide)).2.1
      (by decide)⟩

/-! ## C10: a recorded known-good backup is not refreshed -/

/-- C10: when `st.LastGoodBackup` is set, the managed config file exists and
`backupIfChanged` returns `st1` without error, `recordLastGood` called with `st1` in any
world where the config file is as it was returns `st1` and leaves the world untouched
(no file created), whatever the content of the known-good backup. -/
theorem recordLastGood_never_refreshes (sys : Sys) (cfg : Config) (st : State) (w : World)
    (hgood : st.LastGoodBackup ≠ none)
    (hex : ∃ i, osStat w.fs cfg.ConfigPath = .ok i)
    (hok : (backupIfChanged sys cfg st w).1.2 = none) :
    (∀ w2 : World, w2.fs cfg.ConfigPath = w.fs cfg.ConfigPath →
      recordLastGood sys cfg (backupIfChanged sys cfg st w).1.1 w2 =
        ((backupIfChanged sys cfg st w).1.1, w2)) ∧
    (backupPathAt sys cfg w.now ≠ cfg.ConfigPath →
      recordLastGood sys cfg (backupIfChanged sys cfg st w).1.1
          (backupIfChanged sys cfg st w).2 =
        ((backupIfChanged sys cfg st w).1.1, (backupIfChanged sys cfg st w).2)) := by
  obtain ⟨m, d, hfs, _, _⟩ := backupIfChanged_ok_spec sys cfg st w hex hok
  have hw := backupIfChanged_world sys cfg st w m d hfs hok
  refine ⟨fun w2 h2 => recordLastGood_again sys cfg st w w2 hgood hex hok h2, ?_⟩
  intro hne
  exact recordLastGood_again sys cfg st w _ hgood hex hok ((hw.1 hne).trans hfs.symm)

/-- Witness for C10: in `worldHome` the config (bytes `[2]`) differs from the known-good
backup (bytes `[1]`), yet after the snapshot step `recordLastGood` records nothing. -/
theorem recordLastGood_never_refreshes_witness :
    fsHome cfg0.ConfigPath = some (Node.file 50 [2]) ∧
      fsHome (backupsDir ++ ["openclaw.good.20250101-000000"]) = some (Node.file 10 [1]) ∧
      recordLastGood sysQuiet cfg0 (backupIfChanged sysQuiet cfg0 stateOld worldHome).1.1
          (backupIfChanged sysQuiet cfg0 stateOld worldHome).2 =
        ((backupIfChanged sysQuiet cfg0 stateOld worldHome).1.1,
          (backupIfChanged sysQuiet cfg0 stateOld worldHome).2) :=
  ⟨by decide, by decide,
    (recordLastGood_never_refreshes sysQuiet cfg0 stateOld worldHome (by decide) ⟨_, rfl⟩
      (by decide)).2 (by decide)⟩

/-! ## C4: classification of a probe -/

/-- C4: `healthCheck` reports `ok` exactly when `runCommand` returned a nil error and
exit code 0, and in both cases hands on stdout, stderr, code and err unchanged; this
holds for every quadruple the executor could return and for the quadruple it does return
on the configured health command. -/
theorem healthCheck_ok_iff :
    (∀ r : CmdResult,
      ((healthResult r).ok = true ↔ r.err = none ∧ r.code = 0) ∧
      (healthResult r).stdout = r.stdout ∧ (healthResult r).stderr = r.stderr ∧
      (healthResult r).code = r.code ∧ (healthResult r).err = r.err) ∧
    (∀ (sys : Sys) (cfg : Config) (w : World),
      (healthCheck sys cfg w).1 =
        healthResult (runCommand sys w cfg.HealthTimeoutSeconds cfg.HealthCmd).1) := by
  constructor
  · intro r
    unfold healthResult
    by_cases h : r.err = none ∧ r.code = 0
    · simp [h]
    · simp only [h, if_false]
      simp
  · intro sys cfg w
    rfl

/-! ## C9: the error value of the executor -/

/-- C9 as stated fails: a process that starts and exits with status 1 makes
`runCommand` return exit code 1 together with a non-nil error. -/
theorem runCommand_nonzero_exit_has_error :
    (runCommand sysExitOne worldHome 20 ["openclaw", "health"]).1.code = 1 ∧
      (runCommand sysExitOne worldHome 20 ["openclaw", "health"]).1.err =
        some (GoErr.exit 1) ∧
      (runCommand sysExitOne worldHome 20 ["openclaw", "health"]).1.err ≠ none := by
  refine ⟨by decide, by decide, by decide⟩

/-- C9 amended: for a non-empty argv whose process exits with status `c ≠ 0`,
`runCommand` returns exit code `c` together with the error of `cmd.Run`, the
`*exec.ExitError` carrying `c`, which is not nil.  The error is nil exactly when the argv
is non-empty and the process ran and exited with status 0, in which case the exit code
is 0; an empty argv gives code -1 and an error without running anything. -/
theorem runCommand_error_iff (sys : Sys) (w : World) (timeout : Int) (args : List String) :
    (args ≠ [] → ∀ c : Int, (sys.exec w timeout args).outcome = ProcOutcome.exited c →
      c ≠ 0 →
      (runCommand sys w timeout args).1.code = c ∧
        (runCommand sys w timeout args).1.err = some (GoErr.exit c)) ∧
    ((runCommand sys w timeout args).1.err = none ↔
      args ≠ [] ∧ (sys.exec w timeout args).outcome = ProcOutcome.exited 0) ∧
    ((runCommand sys w timeout args).1.err = none →
      (runCommand sys w timeout args).1.code = 0) ∧
    (args = [] →
      (runCommand sys w timeout args).1.code = -1 ∧
        (runCommand sys w timeout args).1.err ≠ none ∧
        (runCommand sys w timeout args).2 = w) := by
  cases args with
  | nil => simp [runCommand]
  | cons a as =>
    cases ho : (sys.exec w timeout (a :: as)).outcome with
    | exited c =>
      by_cases hc : c = 0
      · simp [runCommand, cmdRun, ho, hc]
      · simp [runCommand, cmdRun, ho, hc]
    | signaled => simp [runCommand, cmdRun, ho]
    | notStarted msg => simp [runCommand, cmdRun, ho]

/-- Witness for C9 amended: a process exiting with status 1 gives code 1 and the exit
error. -/
theorem runCommand_error_iff_witness :
    (runCommand sysExitOne worldHome 20 ["openclaw", "health"]).1.code = 1 ∧
      (runCommand sysExitOne worldHome 20 ["openclaw", "health"]).1.err =
        some (GoErr.exit 1) :=
  (runCommand_error_iff sysExitOne worldHome 20 ["openclaw", "health"]).1 (by decide) 1
    (by decide) (by decide)

/-! ## Lemmas on traces -/

theorem runCommand_trace (sys : Sys) (w : World) (t : Int) (args : List String) :
    (runCommand sys w t args).2.trace = w.trace := by
  unfold runCommand
  split
  · rfl
  · rfl

theorem healthCheck_trace (sys : Sys) (cfg : Config) (w : World) :
    (healthCheck sys cfg w).2.trace = w.trace ++ [Event.probe (healthCheck sys cfg w).1.ok] := by
  simp [healthCheck, World.emit, runCommand_trace]

theorem installGateway_trace (sys : Sys) (cfg : Config) (w : World) :
    (installGateway sys cfg w).trace = w.trace ++ installEvents cfg := by
  unfold installGateway installEvents
  split
  · simp
  · simp [runCommand_trace, World.emit]

theorem bootstrapGateway_trace (sys : Sys) (cfg : Config) (w : World) :
    (bootstrapGateway sys cfg w).trace = w.trace ++ bootstrapEvents cfg := by
  unfold bootstrapGateway bootstrapEvents
  by_cases h : 0 < cfg.BootstrapCmd.length
  · simp [h, runCommand_trace, World.emit]
  · cases hp : cfg.GatewayPlistPath with
    | none => simp [h]
    | some plist => simp [h, runCommand_trace, World.emit]

theorem handleServiceNotLoaded_trace (sys : Sys) (cfg : Config) (w : World) :
    (handleServiceNotLoaded sys cfg w).trace = w.trace ++ repairEvents cfg w.fs := by
  unfold handleServiceNotLoaded repairEvents
  split
  · exact bootstrapGateway_trace sys cfg w
  · rw [bootstrapGateway_trace, installGateway_trace, List.append_assoc]

theorem startGateway_trace (sys : Sys) (cfg : Config) (w : World) :
    (startGateway sys cfg w).2.trace = w.trace ++ [Event.cmd Action.start] := by
  simp [startGateway, runCommand_trace, World.emit]

theorem timeSleep_trace (w : World) (secs : Int) :
    (timeSleep w secs).trace = w.trace ++ [Event.sleep secs] := by
  simp [timeSleep, World.emit]

theorem fastStart_trace (sys : Sys) (cfg : Config) (w : World) :
    (fastStart sys cfg w).2.trace = w.trace ++ fastStartEvents sys cfg w := by
  unfold fastStartEvents fastStart
  cases hs : startGateway sys cfg w with
  | mk b w1 =>
    have hw1 : w1.trace = w.trace ++ [Event.cmd Action.start] := by
      have := startGateway_trace sys cfg w
      rw [hs] at this
      exact this
    cases b with
    | true =>
      simp [healthCheck_trace, timeSleep_trace, startGateway_trace,
        handleServiceNotLoaded_trace, hw1]
    | false =>
      simp [healthCheck_trace, timeSleep_trace, hw1]

theorem tick_of_unhealthy (sys : Sys) (cfg : Config) (l : Loop)
    (h : (initialProbe sys cfg l).1.ok = false) :
    tick sys cfg l =
      { st := (beforeProbe sys cfg l).1,
        lastHealthy :=
          (escalate sys cfg (beforeProbe sys cfg l).1 (initialProbe sys cfg l).1
            (initialProbe sys cfg l).2).1,
        w :=
          (escalate sys cfg (beforeProbe sys cfg l).1 (initialProbe sys cfg l).1
            (initialProbe sys cfg l).2).2 } := by
  unfold initialProbe at h ⊢
  unfold tick
  simp [h]

theorem backupIfChanged_trace (sys : Sys) (cfg : Config) (st : State) (w : World) :
    ∃ evs, (backupIfChanged sys cfg st w).2.trace = w.trace ++ evs ∧
      ∀ e ∈ evs, e = Event.copy cfg.ConfigPath (backupPathAt sys cfg w.now) := by
  cases hfs : w.fs cfg.ConfigPath with
  | none => simp [backupIfChanged, osStat, hfs]
  | some nd =>
    cases nd with
    | denied => simp [backupIfChanged, osStat, hfs]
    | dir m names => simp [backupIfChanged, osStat, fileHash, hfs]
    | file m d =>
      simp only [backupIfChanged, osStat, fileHash, hfs]
      by_cases hh : sys.sha256Hex d = st.LastConfigHash
      · simp [hh]
      · simp only [hh, if_false]
        cases hE : ensureDir w.fs w.now cfg.BackupDir with
        | none => simp
        | some fs1 =>
          simp only
          have ht := copyFile_trace { w with fs := fs1 } cfg.ConfigPath
            (filepathJoin cfg.BackupDir ("openclaw.json." ++ sys.timestamp w.now))
          refine ⟨[Event.copy cfg.ConfigPath (backupPathAt sys cfg w.now)], ?_, by simp⟩
          split
          · rename_i heq
            rw [heq] at ht
            simpa [backupPathAt] using ht
          · rename_i heq
            rw [heq] at ht
            simpa [backupPathAt] using ht

theorem saveState_trace (sys : Sys) (path : Path) (st : State) (w : World) :
    (saveState sys path st w).trace = w.trace ++ [Event.saveState] := by
  unfold saveState
  simp only
  split
  · rfl
  · split <;> rfl

theorem initialProbe_trace (sys : Sys) (cfg : Config) (l : Loop) :
    ∃ pre, (initialProbe sys cfg l).2.trace =
        l.w.trace ++ pre ++ [Event.probe (initialProbe sys cfg l).1.ok] ∧
      ∀ e ∈ pre, e = Event.saveState ∨
        e = Event.copy cfg.ConfigPath (backupPathAt sys cfg l.w.now) := by
  obtain ⟨evs, h1, h2⟩ := backupIfChanged_trace sys cfg l.st l.w
  refine ⟨evs ++ [Event.saveState], ?_, ?_⟩
  · unfold initialProbe
    rw [healthCheck_trace]
    simp only [beforeProbe, saveState_trace, h1, List.append_assoc]
  · intro e he
    rcases List.mem_append.mp he with he | he
    · exact Or.inr (h2 e he)
    · exact Or.inl (by simpa using he)

theorem repairEvents_minor (cfg : Config) (fs : FS) :
    ∀ e ∈ repairEvents cfg fs, e = Event.cmd Action.install ∨ e = Event.cmd Action.bootstrap := by
  intro e he
  unfold repairEvents installEvents bootstrapEvents at he
  split at he
  · split at he
    · exact Or.inr (by simpa using he)
    · simp at he
  · rcases List.mem_append.mp he with he | he
    · split at he
      · simp at he
      · exact Or.inl (by simpa using he)
    · split at he
      · exact Or.inr (by simpa using he)
      · simp at he

/-! ## C5: a healthy probe after the fast start ends the tick -/

/-- C5: in a tick whose first probe is unhealthy and matches `shouldTryStart`, if the
probe after the start action and the backoff wait is healthy, the tick ends with
`lastHealthy = true`, and its events are: the snapshot step (a backup copy of the config,
a state write), the first probe, and then events among which there is no restart, no
status, no doctor and no file copy, the last being the healthy probe. -/
theorem fast_start_short_circuits (sys : Sys) (cfg : Config) (l : Loop)
    (hbad : (initialProbe sys cfg l).1.ok = false)
    (hsig : shouldTryStart (initialProbe sys cfg l).1 = true)
    (hrec : (fastStart sys cfg (initialProbe sys cfg l).2).1 = true) :
    (tick sys cfg l).lastHealthy = true ∧
    ∃ pre evs,
      (tick sys cfg l).w.trace = l.w.trace ++ pre ++ [Event.probe false] ++ evs ∧
      (∀ e ∈ pre, e = Event.saveState ∨
        e = Event.copy cfg.ConfigPath (backupPathAt sys cfg l.w.now)) ∧
      (∀ e ∈ evs, e.isCascade = false) ∧
      evs.getLast? = some (Event.probe true) := by
  have htick := tick_of_unhealthy sys cfg l hbad
  have hesc : escalate sys cfg (beforeProbe sys cfg l).1 (initialProbe sys cfg l).1
      (initialProbe sys cfg l).2 = (true, (fastStart sys cfg (initialProbe sys cfg l).2).2) := by
    unfold escalate
    rw [if_pos hsig]
    cases hf : fastStart sys cfg (initialProbe sys cfg l).2 with
    | mk b w1 =>
      rw [hf] at hrec
      simp only at hrec
      subst hrec
      rfl
  rw [hesc] at htick
  obtain ⟨pre, hpre, hpre2⟩ := initialProbe_trace sys cfg l
  rw [hbad] at hpre
  refine ⟨by rw [htick], pre, fastStartEvents sys cfg (initialProbe sys cfg l).2, ?_, hpre2,
    ?_, ?_⟩
  · rw [htick]
    simp only
    rw [fastStart_trace, hpre]
  · intro e he
    unfold fastStartEvents at he
    simp only [List.mem_append, List.mem_cons, List.mem_singleton, List.not_mem_nil,
      or_false] at he
    rcases he with (rfl | he) | rfl | rfl
    · rfl
    · split at he
      · rcases List.mem_append.mp he with he | he
        · rcases repairEvents_minor cfg _ e he with rfl | rfl <;> rfl
        · simp only [List.mem_singleton] at he
          subst he
          rfl
      · simp at he
    · rfl
    · rfl
  · unfold fastStartEvents
    rw [hrec]
    have hsplit : ∀ (xs ys : List Event) (a b : Event),
        (xs ++ ys ++ [a, b]).getLast? = some b := by
      intro xs ys a b
      rw [show xs ++ ys ++ [a, b] = (xs ++ ys ++ [a]) ++ [b] by simp]
      exact List.getLast?_concat _
    exact hsplit _ _ _ _

/-- Witness for C5: a stopped gateway that answers once started; the tick ends recovered
after the start action, the wait and the healthy probe. -/
theorem fast_start_short_circuits_witness :
    (tick sysStartHeals cfg0 loopHome).w.trace =
        [Event.saveState, Event.probe false, Event.cmd Action.start, Event.sleep 8,
          Event.probe true] ∧
      (tick sysStartHeals cfg0 loopHome).lastHealthy = true :=
  ⟨by decide,
    (fast_start_short_circuits sysStartHeals cfg0 loopHome (by decide) (by decide)
      (by decide)).1⟩

/-! ## Lemmas on the cascade -/

theorem majorEvents_append (xs ys : List Event) :
    majorEvents (xs ++ ys) = majorEvents xs ++ majorEvents ys := by
  simp [majorEvents]

theorem majorEvents_repairEvents (cfg : Config) (fs : FS) :
    majorEvents (repairEvents cfg fs) = [] := by
  unfold majorEvents
  rw [List.filter_eq_nil_iff]
  intro e he
  rcases repairEvents_minor cfg fs e he with rfl | rfl <;> simp [Event.isMinor]

theorem runStatus_trace (sys : Sys) (cfg : Config) (w : World) :
    (runStatus sys cfg w).trace = w.trace ++ [Event.cmd Action.status] := by
  simp [runStatus, runCommand_trace, World.emit]

theorem runDoctor_trace (sys : Sys) (cfg : Config) (w : World) :
    (runDoctor sys cfg w).trace = w.trace ++ [Event.cmd Action.doctor] := by
  simp [runDoctor, runCommand_trace, World.emit]

theorem restart_trace (sys : Sys) (cfg : Config) (w : World) :
    ∃ rep, (restart sys cfg w).trace = w.trace ++ Event.cmd Action.restart :: rep ∧
      majorEvents rep = [] := by
  unfold restart
  cases hr : runCommand sys (w.emit (Event.cmd Action.restart)) 60 cfg.RestartCmd with
  | mk r w1 =>
    have hw1 : w1.trace = w.trace ++ [Event.cmd Action.restart] := by
      have := runCommand_trace sys (w.emit (Event.cmd Action.restart)) 60 cfg.RestartCmd
      rw [hr] at this
      simpa [World.emit] using this
    simp only
    split
    · refine ⟨repairEvents cfg w1.fs, ?_, majorEvents_repairEvents cfg _⟩
      rw [handleServiceNotLoaded_trace, hw1]
      simp
    · exact ⟨[], by simpa using hw1, rfl⟩

/-- The events of a restart, the backoff wait and the re-probe. -/
theorem restart_round_trace (sys : Sys) (cfg : Config) (w : World) :
    ∃ evs,
      (healthCheck sys cfg (timeSleep (restart sys cfg w) cfg.RestartBackoffSeconds)).2.trace =
        w.trace ++ evs ∧
      majorEvents evs =
        [Event.cmd Action.restart,
          Event.probe
            (healthCheck sys cfg
              (timeSleep (restart sys cfg w) cfg.RestartBackoffSeconds)).1.ok] := by
  obtain ⟨rep, h1, h2⟩ := restart_trace sys cfg w
  refine ⟨Event.cmd Action.restart :: rep ++ [Event.sleep cfg.RestartBackoffSeconds,
    Event.probe (healthCheck sys cfg
      (timeSleep (restart sys cfg w) cfg.RestartBackoffSeconds)).1.ok], ?_, ?_⟩
  · rw [healthCheck_trace, timeSleep_trace, h1]
    simp
  · have h3 : majorEvents (Event.cmd Action.restart :: rep) = [Event.cmd Action.restart] := by
      have := majorEvents_append [Event.cmd Action.restart] rep
      rw [h2] at this
      simpa [majorEvents, Event.isMinor] using this
    rw [majorEvents_append, h3]
    simp [majorEvents, Event.isMinor]

theorem restartLoop_trace (sys : Sys) (cfg : Config) (n : Nat) (w : World) :
    ∃ evs, (restartLoop sys cfg n w).2.trace = w.trace ++ evs ∧
      ((restartLoop sys cfg n w).1 = false → majorEvents evs = restartRounds n) := by
  induction n generalizing w with
  | zero => exact ⟨[], by simp [restartLoop], fun _ => rfl⟩
  | succ n ih =>
    obtain ⟨evs, h1, h2⟩ := restart_round_trace sys cfg w
    unfold restartLoop
    simp only
    cases hh : healthCheck sys cfg
        (timeSleep (restart sys cfg w) cfg.RestartBackoffSeconds) with
    | mk h w3 =>
      rw [hh] at h1 h2
      simp only at h1 h2 ⊢
      by_cases hok : h.ok = true
      · simp only [hok, if_true]
        exact ⟨evs, h1, fun hc => by simp at hc⟩
      · have hok2 : h.ok = false := by simpa using hok
        simp only [hok2, Bool.false_eq_true, if_false]
        obtain ⟨evs2, h3, h4⟩ := ih w3
        refine ⟨evs ++ evs2, ?_, ?_⟩
        · rw [h3, h1, List.append_assoc]
        · intro hc
          rw [majorEvents_append, h2, h4 hc, hok2]
          rfl

theorem rollbackToPrevious_nil (sys : Sys) (cfg : Config) (w : World)
    (h : candidateBackups sys w.fs cfg = []) : rollbackToPrevious sys cfg w = (false, w) := by
  simp [rollbackToPrevious, h]

theorem rollbackToPrevious_ok (sys : Sys) (cfg : Config) (w : World) (c : Path)
    (cs : List Path) (h : candidateBackups sys w.fs cfg = c :: cs)
    (hcopy : (copyFile w c cfg.ConfigPath).1 = none) :
    rollbackToPrevious sys cfg w = (true, (copyFile w c cfg.ConfigPath).2) := by
  unfold rollbackToPrevious
  rw [h]
  simp only
  cases hc : copyFile w c cfg.ConfigPath with
  | mk e w1 =>
    rw [hc] at hcopy
    simp only at hcopy
    subst hcopy
    rfl

theorem tick_of_cascade (sys : Sys) (cfg : Config) (l : Loop)
    (hbad : (initialProbe sys cfg l).1.ok = false)
    (hfast : shouldTryStart (initialProbe sys cfg l).1 = true →
      (fastStart sys cfg (initialProbe sys cfg l).2).1 = false) :
    tick sys cfg l =
      { st := (beforeProbe sys cfg l).1,
        lastHealthy := (cascade sys cfg (beforeProbe sys cfg l).1 (cascadeEntry sys cfg l)).1,
        w := (cascade sys cfg (beforeProbe sys cfg l).1 (cascadeEntry sys cfg l)).2 } := by
  rw [tick_of_unhealthy sys cfg l hbad]
  unfold escalate cascadeEntry
  by_cases hs : shouldTryStart (initialProbe sys cfg l).1 = true
  · have hf := hfast hs
    simp only [hs, if_true]
    cases hfs : fastStart sys cfg (initialProbe sys cfg l).2 with
    | mk b w1 =>
      rw [hfs] at hf
      simp only at hf
      subst hf
      rfl
  · simp only [hs, if_false]
    rfl

theorem cascade_of_failed_restarts (sys : Sys) (cfg : Config) (st : State) (w : World)
    (h : (restartLoop sys cfg cfg.MaxRestartAttempts.toNat (runStatus sys cfg w)).1 = false) :
    cascade sys cfg st w =
      rollbackStep sys cfg st
        (runDoctor sys cfg
          (restartLoop sys cfg cfg.MaxRestartAttempts.toNat (runStatus sys cfg w)).2) := by
  unfold cascade
  simp only
  cases hr : restartLoop sys cfg cfg.MaxRestartAttempts.toNat (runStatus sys cfg w) with
  | mk b w2 =>
    rw [hr] at h
    simp only at h
    subst h
    rfl

theorem cascadeEntry_trace (sys : Sys) (cfg : Config) (l : Loop) :
    ∃ pre, (cascadeEntry sys cfg l).trace = l.w.trace ++ pre ∧
      ∀ e ∈ pre, e.isCascade = false ∨
        e = Event.copy cfg.ConfigPath (backupPathAt sys cfg l.w.now) := by
  obtain ⟨pre, h1, h2⟩ := initialProbe_trace sys cfg l
  have hpre : ∀ e ∈ pre ++ [Event.probe (initialProbe sys cfg l).1.ok],
      e.isCascade = false ∨
        e = Event.copy cfg.ConfigPath (backupPathAt sys cfg l.w.now) := by
    intro e he
    rcases List.mem_append.mp he with he | he
    · rcases h2 e he with rfl | rfl
      · exact Or.inl rfl
      · exact Or.inr rfl
    · simp only [List.mem_singleton] at he
      subst he
      exact Or.inl rfl
  unfold cascadeEntry
  split
  · refine ⟨pre ++ [Event.probe (initialProbe sys cfg l).1.ok] ++
      fastStartEvents sys cfg (initialProbe sys cfg l).2, ?_, ?_⟩
    · rw [fastStart_trace, h1]
      simp only [List.append_assoc]
    · intro e he
      rcases List.mem_append.mp he with he | he
      · exact hpre e he
      · left
        unfold fastStartEvents at he
        simp only [List.mem_append, List.mem_cons, List.mem_singleton, List.not_mem_nil,
          or_false] at he
        rcases he with (rfl | he) | rfl | rfl
        · rfl
        · split at he
          · rcases List.mem_append.mp he with he | he
            · rcases repairEvents_minor cfg _ e he with rfl | rfl <;> rfl
            · simp only [List.mem_singleton] at he
              subst he
              rfl
          · simp at he
        · rfl
        · rfl
  · exact ⟨pre ++ [Event.probe (initialProbe sys cfg l).1.ok],
      by rw [h1, List.append_assoc], hpre⟩

theorem rollbackStep_ok (sys : Sys) (cfg : Config) (st : State) (w : World) (c : Path)
    (cs : List Path) (hauto : cfg.AutoRollback = true)
    (hcand : candidateBackups sys w.fs cfg = c :: cs)
    (hcopy : (copyFile w c cfg.ConfigPath).1 = none) :
    ∃ evs, (rollbackStep sys cfg st w).2.trace = w.trace ++ evs ∧
      majorEvents evs =
        [Event.copy c cfg.ConfigPath, Event.cmd Action.restart,
          Event.probe (rollbackStep sys cfg st w).1] := by
  unfold rollbackStep rollbackToPreviousWithState
  rw [if_pos hauto, rollbackToPrevious_ok sys cfg w c cs hcand hcopy]
  simp only
  obtain ⟨evs, h1, h2⟩ := restart_round_trace sys cfg (copyFile w c cfg.ConfigPath).2
  refine ⟨Event.copy c cfg.ConfigPath :: evs, ?_, ?_⟩
  · rw [h1, copyFile_trace]
    simp
  · have h3 := majorEvents_append [Event.copy c cfg.ConfigPath] evs
    rw [h2] at h3
    simpa [majorEvents, Event.isMinor] using h3

theorem rollbackStep_extends (sys : Sys) (cfg : Config) (st : State) (w : World) :
    ∃ evs, (rollbackStep sys cfg st w).2.trace = w.trace ++ evs := by
  unfold rollbackStep rollbackToPreviousWithState rollbackToPrevious
  by_cases hauto : cfg.AutoRollback = true
  · rw [if_pos hauto]
    cases hc : candidateBackups sys w.fs cfg with
    | nil => exact ⟨[], by simp⟩
    | cons c cs =>
      simp only
      have ht := copyFile_trace w c cfg.ConfigPath
      cases hcp : copyFile w c cfg.ConfigPath with
      | mk e w1 =>
        rw [hcp] at ht
        simp only at ht
        cases e with
        | some err => exact ⟨_, ht⟩
        | none =>
          simp only
          obtain ⟨evs, h1, _⟩ := restart_round_trace sys cfg w1
          exact ⟨[Event.copy c cfg.ConfigPath] ++ evs, by rw [h1, ht, List.append_assoc]⟩
  · rw [if_neg hauto]
    exact ⟨[], by simp⟩

theorem cascade_extends (sys : Sys) (cfg : Config) (st : State) (w : World) :
    ∃ evs, (cascade sys cfg st w).2.trace = w.trace ++ evs := by
  unfold cascade
  simp only
  obtain ⟨evs, h1, _⟩ :=
    restartLoop_trace sys cfg cfg.MaxRestartAttempts.toNat (runStatus sys cfg w)
  cases hr : restartLoop sys cfg cfg.MaxRestartAttempts.toNat (runStatus sys cfg w) with
  | mk b w2 =>
    rw [hr] at h1
    simp only at h1
    cases b with
    | true =>
      exact ⟨[Event.cmd Action.status] ++ evs, by
        simp only
        rw [h1, runStatus_trace, List.append_assoc]⟩
    | false =>
      simp only
      obtain ⟨evs2, h2⟩ := rollbackStep_extends sys cfg st (runDoctor sys cfg w2)
      exact ⟨[Event.cmd Action.status] ++ evs ++ [Event.cmd Action.doctor] ++ evs2, by
        rw [h2, runDoctor_trace, h1, runStatus_trace]
        simp only [List.append_assoc]⟩

/-! ## C6: the full cascade -/

/-- C6: in a tick with `MaxRestartAttempts = 2` and `AutoRollback = true` whose first
probe is unhealthy, whose fast start (if attempted) does not recover, whose two cascade
re-probes are unhealthy, and where after the doctor action `candidateBackups` starts
with `c` and copying `c` onto the managed config succeeds: the events of the tick are
some events `pre` holding no restart, status or doctor and no copy but the snapshot
of the config, followed by events whose major part (install, bootstrap and waits left
out) is exactly status, restart, unhealthy probe, restart, unhealthy probe, doctor, the
copy of `c` onto the managed config, restart, final probe; and the tick ends with
`lastHealthy` equal to the verdict of that final probe. -/
theorem full_cascade_scenario (sys : Sys) (cfg : Config) (l : Loop) (c : Path)
    (cs : List Path)
    (hmax : cfg.MaxRestartAttempts = 2) (hauto : cfg.AutoRollback = true)
    (hbad : (initialProbe sys cfg l).1.ok = false)
    (hfast : shouldTryStart (initialProbe sys cfg l).1 = true →
      (fastStart sys cfg (initialProbe sys cfg l).2).1 = false)
    (hloop : (afterRestarts sys cfg l).1 = false)
    (hcand : candidateBackups sys (afterDoctor sys cfg l).fs cfg = c :: cs)
    (hcopy : (copyFile (afterDoctor sys cfg l) c cfg.ConfigPath).1 = none) :
    ∃ pre evs b,
      (tick sys cfg l).w.trace = l.w.trace ++ pre ++ evs ∧
      (∀ e ∈ pre, e.isCascade = false ∨
        e = Event.copy cfg.ConfigPath (backupPathAt sys cfg l.w.now)) ∧
      majorEvents evs =
        [Event.cmd Action.status,
          Event.cmd Action.restart, Event.probe false,
          Event.cmd Action.restart, Event.probe false,
          Event.cmd Action.doctor,
          Event.copy c cfg.ConfigPath,
          Event.cmd Action.restart, Event.probe b] ∧
      (tick sys cfg l).lastHealthy = b := by
  obtain ⟨pre, hpre, hpre2⟩ := cascadeEntry_trace sys cfg l
  have htick := tick_of_cascade sys cfg l hbad hfast
  have hcas := cascade_of_failed_restarts sys cfg (beforeProbe sys cfg l).1
    (cascadeEntry sys cfg l) hloop
  obtain ⟨evs1, h1, h1m⟩ := restartLoop_trace sys cfg cfg.MaxRestartAttempts.toNat
    (runStatus sys cfg (cascadeEntry sys cfg l))
  have h1m2 := h1m hloop
  obtain ⟨evs2, h2, h2m⟩ := rollbackStep_ok sys cfg (beforeProbe sys cfg l).1
    (afterDoctor sys cfg l) c cs hauto hcand hcopy
  have hn : cfg.MaxRestartAttempts.toNat = 2 := by rw [hmax]; rfl
  rw [hn] at h1m2
  refine ⟨pre, [Event.cmd Action.status] ++ evs1 ++ [Event.cmd Action.doctor] ++ evs2,
    (rollbackStep sys cfg (beforeProbe sys cfg l).1 (afterDoctor sys cfg l)).1,
    ?_, hpre2, ?_, ?_⟩
  · rw [htick]
    simp only
    rw [hcas]
    unfold afterDoctor afterRestarts at h2
    rw [h2, runDoctor_trace, h1, runStatus_trace, hpre]
    simp only [List.append_assoc]
  · rw [majorEvents_append, majorEvents_append, majorEvents_append, h1m2, h2m]
    simp [majorEvents, Event.isMinor, restartRounds]
  · rw [htick]
    simp only
    rw [hcas]
    rfl

/-- Witness for C6: with the default configuration, a gateway that stays unhealthy until
the config is rolled back, and one known-good backup, the tick runs the full cascade and
ends recovered. -/
theorem full_cascade_scenario_witness :
    (tick sysNeedsRollback cfg0 loopHome).w.trace =
        [Event.saveState, Event.probe false, Event.cmd Action.status,
          Event.cmd Action.restart, Event.sleep 8, Event.probe false,
          Event.cmd Action.restart, Event.sleep 8, Event.probe false,
          Event.cmd Action.doctor,
          Event.copy (backupsDir ++ ["openclaw.good.20250101-000000"]) cfg0.ConfigPath,
          Event.cmd Action.restart, Event.sleep 8, Event.probe true] ∧
      ∃ pre evs b,
        (tick sysNeedsRollback cfg0 loopHome).w.trace = loopHome.w.trace ++ pre ++ evs ∧
        (∀ e ∈ pre, e.isCascade = false ∨
          e = Event.copy cfg0.ConfigPath (backupPathAt sysNeedsRollback cfg0 loopHome.w.now)) ∧
        majorEvents evs =
          [Event.cmd Action.status,
            Event.cmd Action.restart, Event.probe false,
            Event.cmd Action.restart, Event.probe false,
            Event.cmd Action.doctor,
            Event.copy (backupsDir ++ ["openclaw.good.20250101-000000"]) cfg0.ConfigPath,
            Event.cmd Action.restart, Event.probe b] ∧
        (tick sysNeedsRollback cfg0 loopHome).lastHealthy = b :=
  ⟨by decide,
    full_cascade_scenario sysNeedsRollback cfg0 loopHome
      (backupsDir ++ ["openclaw.good.20250101-000000"]) [] (by decide) (by decide)
      (by decide) (by decide) (by decide) (by decide) (by decide)⟩

/-! ## C7: rollback without candidates -/

/-- C7: when `candidateBackups` is empty, `rollbackToPrevious` returns false and leaves
the world as it was (no copy is attempted, the managed config is untouched); and a tick
that reaches the doctor action with no candidate ends with `lastHealthy = false` in the
very world the doctor action left, so nothing (no restart, no probe) follows the doctor
action, which is the last event of the tick. -/
theorem rollback_exhaustion :
    (∀ (sys : Sys) (cfg : Config) (w : World), candidateBackups sys w.fs cfg = [] →
      rollbackToPrevious sys cfg w = (false, w)) ∧
    (∀ (sys : Sys) (cfg : Config) (l : Loop),
      cfg.AutoRollback = true →
      (initialProbe sys cfg l).1.ok = false →
      (shouldTryStart (initialProbe sys cfg l).1 = true →
        (fastStart sys cfg (initialProbe sys cfg l).2).1 = false) →
      (afterRestarts sys cfg l).1 = false →
      candidateBackups sys (afterDoctor sys cfg l).fs cfg = [] →
      (tick sys cfg l).lastHealthy = false ∧
        (tick sys cfg l).w = afterDoctor sys cfg l ∧
        (tick sys cfg l).w.trace =
          (afterRestarts sys cfg l).2.trace ++ [Event.cmd Action.doctor]) := by
  refine ⟨rollbackToPrevious_nil, ?_⟩
  intro sys cfg l hauto hbad hfast hloop hcand
  have htick := tick_of_cascade sys cfg l hbad hfast
  have hcas := cascade_of_failed_restarts sys cfg (beforeProbe sys cfg l).1
    (cascadeEntry sys cfg l) hloop
  have hrb : rollbackStep sys cfg (beforeProbe sys cfg l).1 (afterDoctor sys cfg l) =
      (false, afterDoctor sys cfg l) := by
    unfold rollbackStep rollbackToPreviousWithState
    rw [if_pos hauto, rollbackToPrevious_nil sys cfg _ hcand]
  have hw : (tick sys cfg l).w = afterDoctor sys cfg l := by
    rw [htick]
    simp only
    rw [hcas]
    exact congrArg Prod.snd hrb
  refine ⟨?_, hw, ?_⟩
  · rw [htick]
    simp only
    rw [hcas]
    exact congrArg Prod.fst hrb
  · rw [hw]
    exact runDoctor_trace sys cfg _

/-- Witness for C7: with no backup of any kind and a gateway that never answers, the
tick ends unhealthy right after the doctor action and the managed config keeps its
bytes. -/
theorem rollback_exhaustion_witness :
    (tick sysDead cfg0 loopBare).w.trace =
        [Event.saveState, Event.probe false, Event.cmd Action.status,
          Event.cmd Action.restart, Event.sleep 8, Event.probe false,
          Event.cmd Action.restart, Event.sleep 8, Event.probe false,
          Event.cmd Action.doctor] ∧
      (tick sysDead cfg0 loopBare).w.fs cfg0.ConfigPath = some (Node.file 50 [2]) ∧
      (tick sysDead cfg0 loopBare).lastHealthy = false ∧
      (tick sysDead cfg0 loopBare).w = afterDoctor sysDead cfg0 loopBare :=
  ⟨by decide, by decide,
    (rollback_exhaustion.2 sysDead cfg0 loopBare (by decide) (by decide) (by decide)
      (by decide) (by decide)).1,
    (rollback_exhaustion.2 sysDead cfg0 loopBare (by decide) (by decide) (by decide)
      (by decide) (by decide)).2.1⟩

/-! ## C8: the repair after a start that reports the service as not loaded -/

/-- C8 as stated fails: with the gateway plist present, a start that reports
"Gateway service not loaded" is followed by bootstrap and the second start only; the
install action is not run. -/
theorem fast_start_repair_skips_install :
    (initialProbe sysNotLoaded cfg0 loopPlist).1.ok = false ∧
      shouldTryStart (initialProbe sysNotLoaded cfg0 loopPlist).1 = true ∧
      (startGateway sysNotLoaded cfg0 (initialProbe sysNotLoaded cfg0 loopPlist).2).1 = true ∧
      (tick sysNotLoaded cfg0 loopPlist).w.trace =
        [Event.saveState, Event.probe false, Event.cmd Action.start,
          Event.cmd Action.bootstrap, Event.cmd Action.start, Event.sleep 8,
          Event.probe true] ∧
      Event.cmd Action.install ∉ (tick sysNotLoaded cfg0 loopPlist).w.trace := by
  refine ⟨by decide, by decide, by decide, by decide, by decide⟩

/-- C8 amended: in a tick that takes the fast-start path and whose first start action
reports "Gateway service not loaded", the events after the first probe begin with:
start, the repair, start once more, the backoff wait, the re-probe.  The repair is the
bootstrap action alone when the gateway plist path is set and the plist exists; it is the
install action followed by the bootstrap action when the plist path is unset or the
plist does not exist (install being configured, and bootstrap being configured or the
plist path set). -/
theorem fast_start_repair_sequence (sys : Sys) (cfg : Config) (l : Loop)
    (hbad : (initialProbe sys cfg l).1.ok = false)
    (hsig : shouldTryStart (initialProbe sys cfg l).1 = true)
    (hnl : (startGateway sys cfg (initialProbe sys cfg l).2).1 = true) :
    (∃ rest,
      (tick sys cfg l).w.trace =
        (initialProbe sys cfg l).2.trace ++
          ([Event.cmd Action.start] ++
            repairEvents cfg (startGateway sys cfg (initialProbe sys cfg l).2).2.fs ++
            [Event.cmd Action.start, Event.sleep cfg.RestartBackoffSeconds,
              Event.probe (fastStart sys cfg (initialProbe sys cfg l).2).1]) ++ rest) ∧
    (∀ fs, plistExists cfg fs = true → repairEvents cfg fs = [Event.cmd Action.bootstrap]) ∧
    (∀ fs, plistExists cfg fs = false → cfg.InstallCmd ≠ [] →
      (cfg.BootstrapCmd ≠ [] ∨ cfg.GatewayPlistPath ≠ none) →
      repairEvents cfg fs = [Event.cmd Action.install, Event.cmd Action.bootstrap]) := by
  refine ⟨?_, ?_, ?_⟩
  · have htick := tick_of_unhealthy sys cfg l hbad
    have hft := fastStart_trace sys cfg (initialProbe sys cfg l).2
    have hev : fastStartEvents sys cfg (initialProbe sys cfg l).2 =
        [Event.cmd Action.start] ++
          repairEvents cfg (startGateway sys cfg (initialProbe sys cfg l).2).2.fs ++
          [Event.cmd Action.start, Event.sleep cfg.RestartBackoffSeconds,
            Event.probe (fastStart sys cfg (initialProbe sys cfg l).2).1] := by
      unfold fastStartEvents
      rw [if_pos hnl]
      simp
    rw [hev] at hft
    rw [htick]
    simp only
    unfold escalate
    rw [if_pos hsig]
    cases hf : fastStart sys cfg (initialProbe sys cfg l).2 with
    | mk b w1 =>
      rw [hf] at hft
      simp only at hft
      cases b with
      | true => exact ⟨[], by simp only [List.append_nil]; exact hft⟩
      | false =>
        simp only
        obtain ⟨rest, hrest⟩ := cascade_extends sys cfg (beforeProbe sys cfg l).1 w1
        exact ⟨rest, by rw [hrest, hft]⟩
  · intro fs hp
    have hset : cfg.GatewayPlistPath ≠ none := by
      intro hn
      simp [plistExists, hn] at hp
    simp [repairEvents, hp, bootstrapEvents, hset]
  · intro fs hp hi hb
    have hi2 : ¬ cfg.InstallCmd.length = 0 := by
      intro h0
      exact hi (List.length_eq_zero.mp h0)
    have hb2 : 0 < cfg.BootstrapCmd.length ∨ cfg.GatewayPlistPath ≠ none := by
      rcases hb with hb | hb
      · exact Or.inl (List.length_pos.mpr hb)
      · exact Or.inr hb
    simp only [repairEvents, hp, installEvents, bootstrapEvents, if_neg hi2, if_pos hb2]
    simp

/-- Witness for C8 amended: without a plist the repair is install then bootstrap; with
the plist present it is bootstrap alone. -/
theorem fast_start_repair_sequence_witness :
    (tick sysNotLoaded cfg0 loopHome).w.trace =
        [Event.saveState, Event.probe false, Event.cmd Action.start,
          Event.cmd Action.install, Event.cmd Action.bootstrap, Event.cmd Action.start,
          Event.sleep 8, Event.probe true] ∧
      repairEvents cfg0 fsHome = [Event.cmd Action.install, Event.cmd Action.bootstrap] ∧
      repairEvents cfg0 fsPlist = [Event.cmd Action.bootstrap] ∧
      ∃ rest,
        (tick sysNotLoaded cfg0 loopHome).w.trace =
          (initialProbe sysNotLoaded cfg0 loopHome).2.trace ++
            ([Event.cmd Action.start] ++
              repairEvents cfg0
                (startGateway sysNotLoaded cfg0
                  (initialProbe sysNotLoaded cfg0 loopHome).2).2.fs ++
              [Event.cmd Action.start, Event.sleep cfg0.RestartBackoffSeconds,
                Event.probe
                  (fastStart sysNotLoaded cfg0
                    (initialProbe sysNotLoaded cfg0 loopHome).2).1]) ++ rest :=
  ⟨by decide,
    (fast_start_repair_sequence sysNotLoaded cfg0 loopHome (by decide) (by decide)
      (by decide)).2.2 fsHome (by decide) (by decide) (by decide),
    (fast_start_repair_sequence sysNotLoaded cfg0 loopHome (by decide) (by decide)
      (by decide)).2.1 fsPlist (by decide),
    (fast_start_repair_sequence sysNotLoaded cfg0 loopHome (by decide) (by decide)
      (by decide)).1⟩

end Guardian
